import Mathlib

/-! # School network simulation (`src/main.cc`): sampler, scenario set-up, final report

Shallow embedding of the class `SchoolNetwork` of `src/main.cc`.

Modelling conventions.

* A C++ `double` is a binary64 value (`Double`): a finite number given by its exact
  rational value, an infinity or a NaN. Every arithmetic operation rounds the exact result
  to the nearest binary64 number, ties to even, and overflows to an infinity; a division by
  zero gives an infinity, or a NaN for `0 / 0`. The sign of a zero is not tracked (the
  program never divides by a negative zero).
* Simulation time is a rational number of seconds (`Seconds` is the identity);
  `Time::GetSeconds()` gives the nearest `double`, which is the time itself for the
  multiples of 0.5 s at which this program samples.
* A `uint64_t` byte counter is a natural number taken modulo `2 ^ 64`.
* An output stream (`m_throughputStream`, `std::cout`) is the list of the items inserted with
  `<<`, in order. How the data file shows a `double` (default format) is a parameter `fmt`
  wherever the text itself is looked at; what `std::fixed << std::setprecision(p)` shows is
  the decimal number with `p` places nearest to the `double`, ties to even.
* The simulator keeps the events this program schedules itself (`MonitorThroughput` and the
  stop event); packet deliveries belong to the network library and appear as an arbitrary
  function `rx` from the simulation time to the byte totals of the four sinks.
* Of the network library the embedding takes over: events fire in the order of their
  times and, at equal times, in the order of their scheduling; `Simulator::Stop(delay)`
  schedules the stop as an event; `OnOffHelper::SetConstantRate` sets an on time constant
  1000, an off time constant 0, the rate and the packet size; attribute strings are read
  as `digits unit` for a rate and `Type[Key=decimal]` for a random variable.
* The data file is taken to open; the address report of `PrintSpecificIPs` and the
  topology (`InstallInternetStack`, `SetupTopology`) are left out.
-/

namespace SchoolNetworkSim

/-! ## Binary64 arithmetic -/

/-- Nearest integer, ties to the even one. -/
def roundHalfEven (x : ℚ) : ℤ :=
  if x - ⌊x⌋ < 1 / 2 then ⌊x⌋
  else if 1 / 2 < x - ⌊x⌋ then ⌊x⌋ + 1
  else if ⌊x⌋ % 2 = 0 then ⌊x⌋ else ⌊x⌋ + 1

/-- Binary exponent of the last place of `q` in binary64: 53 significant bits, and never
below the exponent -1074 of the subnormal numbers. -/
def ulpExp (q : ℚ) : ℤ := max (Int.log 2 |q| - 52) (-1074)

/-- The multiple of the last place nearest to `q`, ties to even. -/
def roundQ (q : ℚ) : ℚ := (roundHalfEven (q / 2 ^ ulpExp q) : ℚ) * 2 ^ ulpExp q

/-- A binary64 value: a finite number given by its exact value, an infinity, or a NaN. -/
inductive Double where
  | finite (v : ℚ)
  | inf (neg : Bool)
  | nan
  deriving DecidableEq

/-- Rounding of an exact result to binary64: to nearest, ties to even, overflow to an
infinity. -/
def Double.round (q : ℚ) : Double :=
  if 2 ^ 1024 ≤ |roundQ q| then .inf (decide (q < 0)) else .finite (roundQ q)

/-- Conversion of a `uint64_t` to `double`. -/
def Double.ofU64 (n : Nat) : Double := Double.round n

/-- A decimal literal of the source, as the `double` it denotes. -/
def Double.lit (q : ℚ) : Double := Double.round q

/-- Product of two doubles. -/
def Double.mul : Double → Double → Double
  | .finite a, .finite b => Double.round (a * b)
  | .finite a, .inf s => if a = 0 then .nan else .inf (xor s (decide (a < 0)))
  | .inf s, .finite b => if b = 0 then .nan else .inf (xor s (decide (b < 0)))
  | .inf s, .inf t => .inf (xor s t)
  | _, _ => .nan

/-- Quotient of two doubles; a division by zero gives an infinity, or a NaN for `0 / 0`. -/
def Double.div : Double → Double → Double
  | .finite a, .finite b =>
    if b = 0 then (if a = 0 then .nan else .inf (decide (a < 0))) else Double.round (a / b)
  | .finite _, .inf _ => .finite 0
  | .inf s, .finite b => .inf (xor s (decide (b < 0)))
  | _, _ => .nan

instance : Mul Double := ⟨Double.mul⟩

instance : Div Double := ⟨Double.div⟩

/-- Whether a double is a number, neither infinite nor NaN. -/
def Double.isFinite : Double → Bool
  | .finite _ => true
  | _ => false

/-- What `std::fixed << std::setprecision(p)` shows of a double: the decimal number with
`p` places nearest to it, ties to even; no number for an infinity or a NaN. -/
def shownFixed (p : Nat) : Double → Option ℚ
  | .finite v => some ((roundHalfEven (v * 10 ^ p) : ℚ) / 10 ^ p)
  | _ => none

/-! ## Output streams -/

/-- One item inserted into an output stream with `<<`. -/
inductive Out where
  | str (s : String)
  | dbl (v : Double)
  | u64 (n : Nat)
  | endl
  | left
  | setw (n : Nat)
  | fixed
  | setprecision (n : Nat)
  deriving DecidableEq

/-! ## Simulator -/

/-- Library `Seconds(v)`: a time of `v` seconds. -/
def Seconds (v : ℚ) : ℚ := v

/-- Library `Time::GetSeconds()`: the time in seconds as a `double`. -/
def GetSeconds (t : ℚ) : Double := Double.round t

/-- The callbacks this program hands to the simulator. -/
inductive EventImpl where
  | MonitorThroughput
  | Stop
  deriving DecidableEq

/-- A scheduled event: absolute time, insertion number, callback. -/
structure Event where
  ts : ℚ
  uid : Nat
  impl : EventImpl
  deriving DecidableEq

/-- Simulator state: current time, next insertion number, pending events in dispatch
order (time first, insertion number second), stop flag. -/
structure Simulator where
  m_currentTs : ℚ
  m_uid : Nat
  m_events : List Event
  m_stop : Bool
  deriving DecidableEq

/-- Ordered insertion of an event: after every event that is not later than it. -/
def Insert (e : Event) : List Event → List Event
  | [] => [e]
  | x :: xs => if e.ts < x.ts then e :: x :: xs else x :: Insert e xs

/-- Library `Simulator::Now()`. -/
def Simulator.Now (sim : Simulator) : ℚ := sim.m_currentTs

/-- Library `Simulator::Schedule(delay, callback)`: the event is due `delay` after now. -/
def Simulator.Schedule (sim : Simulator) (delay : ℚ) (impl : EventImpl) : Simulator :=
  { sim with
    m_events := Insert ⟨sim.m_currentTs + delay, sim.m_uid, impl⟩ sim.m_events
    m_uid := sim.m_uid + 1 }

/-! ## The class `SchoolNetwork` -/

/-- A `PacketSink` as this program sees it: its byte counter. -/
structure PacketSink where
  m_totalRx : Nat
  deriving DecidableEq

/-- Library `PacketSink::GetTotalRx()`: the counter, a `uint64_t`. -/
def PacketSink.GetTotalRx (s : PacketSink) : Nat := s.m_totalRx % 2 ^ 64

/-- Byte totals of the four sinks, as delivered by the network library. -/
structure SinkTotals where
  cbr : Nat
  bursty : Nat
  webBg : Nat
  webStd : Nat
  deriving DecidableEq

/-- State of the program: the members of `SchoolNetwork` used after set-up, the
simulator and `std::cout`. -/
structure SchoolNetwork where
  m_sinkCbr : PacketSink
  m_sinkBursty : PacketSink
  m_sinkWebBg : PacketSink
  m_sinkWebStd : PacketSink
  m_throughputStream : List Out
  sim : Simulator
  cout : List Out
  deriving DecidableEq

/-- Method `SchoolNetwork::MonitorThroughput` (lines 347-359). -/
def MonitorThroughput (self : SchoolNetwork) : SchoolNetwork :=
  let time : Double := GetSeconds self.sim.Now
  let rateCbr : Double :=
    (Double.ofU64 self.m_sinkCbr.GetTotalRx * Double.lit 8.0) / Double.lit 1e6 / time
  let rateBursty : Double :=
    (Double.ofU64 self.m_sinkBursty.GetTotalRx * Double.lit 8.0) / Double.lit 1e6 / time
  let rateWebStd : Double :=
    (Double.ofU64 self.m_sinkWebStd.GetTotalRx * Double.lit 8.0) / Double.lit 1e6 / time
  { self with
    m_throughputStream := self.m_throughputStream ++
      [.dbl time, .str "\t", .dbl rateCbr, .str "\t", .dbl rateBursty, .str "\t",
       .dbl rateWebStd, .endl]
    sim := self.sim.Schedule (Seconds 0.5) .MonitorThroughput }

/-- The lambda `printStat` of `SchoolNetwork::PrintFinalStats` (lines 366-374). -/
def printStat (totalTime : Double) (name : String) (sink : PacketSink) : List Out :=
  let totalBytes : Nat := sink.GetTotalRx
  let throughputKbps : Double :=
    (Double.ofU64 totalBytes * Double.lit 8.0) / Double.lit 1000.0 / totalTime
  [.str "Trafico ", .left, .setw 15, .str name,
   .str " | RX Bytes: ", .setw 10, .u64 totalBytes,
   .str " | Throughput: ", .fixed, .setprecision 2,
   .dbl throughputKbps, .str " Kbps", .endl]

/-- Method `SchoolNetwork::PrintFinalStats` (lines 362-384). -/
def PrintFinalStats (self : SchoolNetwork) : SchoolNetwork :=
  let totalTime : Double := Double.lit 12.0
  { self with
    cout := self.cout ++
      [.str "\n--- ESTADISTICAS FINALES (SERVIDOR) ---", .endl] ++
      printStat totalTime "CBR (Video)" self.m_sinkCbr ++
      printStat totalTime "Bursty" self.m_sinkBursty ++
      printStat totalTime "Web Fondo" self.m_sinkWebBg ++
      printStat totalTime "Web Std" self.m_sinkWebStd ++
      [.str "\n[GENERADOS] Archivos de salida:", .endl,
       .str " 1. \x27throughput-data.dat\x27 -> Usar Gnuplot/Excel para graficas.", .endl,
       .str " 2. \x27school-router-1.pcap\x27 -> Usar Wireshark para ver Prioridad (TOS).", .endl] }

/-- The constructor `SchoolNetwork::SchoolNetwork` (lines 51-69): the data file is opened
and its header line written; nothing is scheduled and nothing received yet. -/
def SchoolNetwork.new : SchoolNetwork :=
  { m_sinkCbr := ⟨0⟩, m_sinkBursty := ⟨0⟩, m_sinkWebBg := ⟨0⟩, m_sinkWebStd := ⟨0⟩
    m_throughputStream :=
      [.str "# Time(s) \t CBR(Mbps) \t Bursty(Mbps) \t WebStd(Mbps)", .endl]
    sim := ⟨0, 0, [], false⟩
    cout := [] }

/-- Library `Simulator::Stop(delay)`: the stop is itself an event of the queue. -/
def Simulator.Stop (sim : Simulator) (delay : ℚ) : Simulator :=
  sim.Schedule delay .Stop

/-- One dispatch of the simulator: the earliest event is removed, the clock moves to its
time, the sinks hold what the network has delivered by then, and the callback runs. -/
def ProcessOneEvent (rx : ℚ → SinkTotals) (w : SchoolNetwork) : SchoolNetwork :=
  match w.sim.m_events with
  | [] => w
  | next :: rest =>
    let w1 : SchoolNetwork :=
      { w with
        sim := { w.sim with m_events := rest, m_currentTs := next.ts }
        m_sinkCbr := ⟨(rx next.ts).cbr⟩
        m_sinkBursty := ⟨(rx next.ts).bursty⟩
        m_sinkWebBg := ⟨(rx next.ts).webBg⟩
        m_sinkWebStd := ⟨(rx next.ts).webStd⟩ }
    match next.impl with
    | .MonitorThroughput => MonitorThroughput w1
    | .Stop => { w1 with sim := { w1.sim with m_stop := true } }

/-- Library `Simulator::Run()`: events are dispatched until the queue is empty or the stop flag
is set; `fuel` bounds the number of dispatches. -/
def SimulatorRun (rx : ℚ → SinkTotals) : Nat → SchoolNetwork → SchoolNetwork
  | 0, w => w
  | fuel + 1, w =>
    if w.sim.m_events.isEmpty || w.sim.m_stop then w
    else SimulatorRun rx fuel (ProcessOneEvent rx w)

/-- The state in which `Run` (lines 79-105) calls `Simulator::Run()`: the sampler is
scheduled at 1.0 s and the stop at 12.0 s. -/
def RunSetup : SchoolNetwork :=
  let w := SchoolNetwork.new
  let w := { w with sim := w.sim.Schedule (Seconds 1.0) .MonitorThroughput }
  { w with sim := w.sim.Stop (Seconds 12.0) }

/-- Method `SchoolNetwork::Run` (lines 79-112), from the scheduling of the sampler on: the
simulation, then the final report. -/
def Run (rx : ℚ → SinkTotals) (fuel : Nat) : SchoolNetwork :=
  PrintFinalStats (SimulatorRun rx fuel RunSetup)

/-! ## Reading an output stream back -/

/-- Pieces of a list between occurrences of a separator. -/
def splitOn {α : Type} [DecidableEq α] (sep : α) : List α → List (List α)
  | [] => [[]]
  | x :: xs =>
    if x = sep then [] :: splitOn sep xs
    else
      match splitOn sep xs with
      | [] => [[x]]
      | l :: ls => (x :: l) :: ls

/-- The lines of a stream: what stands before each `endl`. -/
def lines (stream : List Out) : List (List Out) := (splitOn Out.endl stream).dropLast

/-- The `double` values of a line, in order. -/
def values : List Out → List Double
  | [] => []
  | .dbl v :: rest => v :: values rest
  | _ :: rest => values rest

/-- The data rows of the throughput file: its lines after the header line. -/
def dataRows (stream : List Out) : List (List Double) := ((lines stream).drop 1).map values

/-- The time stamps of the data rows. -/
def sampleTimes (stream : List Out) : List Double := (dataRows stream).filterMap List.head?

/-- The characters of a line of the data file, `fmt` being how it shows a `double`. -/
def render (fmt : Double → List Char) : List Out → List Char
  | [] => []
  | .str s :: rest => s.toList ++ render fmt rest
  | .dbl v :: rest => fmt v ++ render fmt rest
  | .u64 n :: rest => (Nat.repr n).toList ++ render fmt rest
  | .endl :: rest => '\n' :: render fmt rest
  | _ :: rest => render fmt rest

/-- A line of the final report read back: label, byte count, and the rate as shown with
the precision set on the stream. -/
def parseStat : List Out → Option (String × Nat × Option ℚ)
  | [.str "Trafico ", .left, .setw 15, .str name, .str " | RX Bytes: ", .setw 10, .u64 b,
     .str " | Throughput: ", .fixed, .setprecision p, .dbl r, .str " Kbps"] =>
    some (name, b, shownFixed p r)
  | _ => none

/-- The per-class entries of the final report. -/
def finalStats (cout : List Out) : List (String × Nat × Option ℚ) :=
  (lines cout).filterMap parseStat

/-- What one firing of `MonitorThroughput` in state `self` appends to the data file. -/
def written (self : SchoolNetwork) : List Out :=
  (MonitorThroughput self).m_throughputStream.drop self.m_throughputStream.length

/-- The tab-separated columns of a line of the data file. -/
def columns (fmt : Double → List Char) (line : List Out) : List (List Char) :=
  splitOn '\t' (render fmt line)

/-! ## Closed form of the run -/

/-- Lines written one after the other, each closed by `endl`. -/
def joinLines (ls : List (List Out)) : List Out :=
  ls.flatMap fun l => l ++ [Out.endl]

/-- The header line of the data file. -/
def headerLine : List Out :=
  [.str "# Time(s) \t CBR(Mbps) \t Bursty(Mbps) \t WebStd(Mbps)"]

/-- Time of the sample number `k`, counted from 0. -/
def sampleTime (k : Nat) : ℚ := 1 + (k : ℚ) / 2

/-- The rate expression of `MonitorThroughput` for one sink and the time of the firing. -/
def mbps (sink : PacketSink) (time : Double) : Double :=
  (Double.ofU64 sink.GetTotalRx * Double.lit 8.0) / Double.lit 1e6 / time

/-- The rate expression of `printStat` for one sink. -/
def kbps (sink : PacketSink) : Double :=
  (Double.ofU64 sink.GetTotalRx * Double.lit 8.0) / Double.lit 1000.0 / Double.lit 12.0

/-- The data row of a firing at time `now` with the given sinks. -/
def rowItems (cbr bursty webStd : PacketSink) (now : ℚ) : List Out :=
  [.dbl (GetSeconds now), .str "\t", .dbl (mbps cbr (GetSeconds now)), .str "\t",
   .dbl (mbps bursty (GetSeconds now)), .str "\t", .dbl (mbps webStd (GetSeconds now))]

/-- The data row of the firing of the run at time `t`. -/
def rowAt (rx : ℚ → SinkTotals) (t : ℚ) : List Out :=
  rowItems ⟨(rx t).cbr⟩ ⟨(rx t).bursty⟩ ⟨(rx t).webStd⟩ t

/-- The first `n` data rows of the run. -/
def rowsUpTo (rx : ℚ → SinkTotals) (n : Nat) : List (List Out) :=
  (List.range n).map fun k => rowAt rx (sampleTime k)

/-- The event queue after `n` firings of the sampler, `n` at least 1. -/
def eventsAfter (n : Nat) : List Event :=
  if n < 22 then [⟨sampleTime n, n + 1, .MonitorThroughput⟩, ⟨12, 1, .Stop⟩]
  else [⟨12, 1, .Stop⟩, ⟨sampleTime n, n + 1, .MonitorThroughput⟩]

/-- The state after `n` dispatches, for `n` up to 22. -/
def stateAfter (rx : ℚ → SinkTotals) : Nat → SchoolNetwork
  | 0 => RunSetup
  | n + 1 =>
    { m_sinkCbr := ⟨(rx (sampleTime n)).cbr⟩
      m_sinkBursty := ⟨(rx (sampleTime n)).bursty⟩
      m_sinkWebBg := ⟨(rx (sampleTime n)).webBg⟩
      m_sinkWebStd := ⟨(rx (sampleTime n)).webStd⟩
      m_throughputStream := joinLines (headerLine :: rowsUpTo rx (n + 1))
      sim := ⟨sampleTime n, n + 3, eventsAfter (n + 1), false⟩
      cout := [] }

/-- The state in which `Simulator::Run()` returns. -/
def stateStopped (rx : ℚ → SinkTotals) : SchoolNetwork :=
  { m_sinkCbr := ⟨(rx 12).cbr⟩
    m_sinkBursty := ⟨(rx 12).bursty⟩
    m_sinkWebBg := ⟨(rx 12).webBg⟩
    m_sinkWebStd := ⟨(rx 12).webStd⟩
    m_throughputStream := joinLines (headerLine :: rowsUpTo rx 22)
    sim := ⟨12, 24, [⟨12, 23, .MonitorThroughput⟩], true⟩
    cout := [] }

/-- One turn of the loop of `Simulator::Run()`. -/
def runStep (rx : ℚ → SinkTotals) (w : SchoolNetwork) : SchoolNetwork :=
  if w.sim.m_events.isEmpty || w.sim.m_stop then w else ProcessOneEvent rx w

/-! ## Attribute values of the network library -/

/-- Value of a string of decimal digits. -/
def digitsValue (cs : List Char) : Nat :=
  cs.foldl (fun n c => 10 * n + (c.toNat - 48)) 0

/-- Library `DataRate("...")` in bit/s: digits followed by a unit. -/
def DataRate (s : String) : Option Nat :=
  let ds := s.toList.takeWhile Char.isDigit
  let unit := s.toList.dropWhile Char.isDigit
  if ds = [] then none
  else if unit = "bps".toList then some (digitsValue ds)
  else if unit = "kbps".toList then some (digitsValue ds * 1000)
  else if unit = "Mbps".toList then some (digitsValue ds * 1000000)
  else if unit = "Gbps".toList then some (digitsValue ds * 1000000000)
  else none

/-- A decimal numeral: `mantissa / 10 ^ scale`. -/
structure Decimal where
  mantissa : Nat
  scale : Nat
  deriving DecidableEq

/-- The number a decimal numeral stands for. -/
def Decimal.toRat (d : Decimal) : ℚ := (d.mantissa : ℚ) / 10 ^ d.scale

/-- Reads `digits` or `digits.digits`. -/
def parseDecimal (cs : List Char) : Option Decimal :=
  let ip := cs.takeWhile Char.isDigit
  match cs.dropWhile Char.isDigit with
  | [] => if ip = [] then none else some ⟨digitsValue ip, 0⟩
  | c :: fs =>
    if c = '.' ∧ ip ≠ [] ∧ fs ≠ [] ∧ fs.all Char.isDigit then
      some ⟨digitsValue (ip ++ fs), fs.length⟩
    else none

/-- The random variables used for the on and off times. -/
inductive RandomVariable where
  | Constant (c : Decimal)
  | Exponential (mean : Decimal)
  deriving DecidableEq

/-- Reads `ns3::ConstantRandomVariable[Constant=c]` or
`ns3::ExponentialRandomVariable[Mean=m]`. -/
def parseRandomVariable (s : String) : Option RandomVariable :=
  let ty := s.toList.takeWhile (fun c => c != '[')
  let inner := ((s.toList.dropWhile (fun c => c != '[')).drop 1)
  let key := inner.takeWhile (fun c => c != '=')
  let val := (inner.dropWhile (fun c => c != '=')).drop 1
  if val.getLast? ≠ some ']' then none
  else if ty = "ns3::ConstantRandomVariable".toList ∧ key = "Constant".toList then
    (parseDecimal val.dropLast).map RandomVariable.Constant
  else if ty = "ns3::ExponentialRandomVariable".toList ∧ key = "Mean".toList then
    (parseDecimal val.dropLast).map RandomVariable.Exponential
  else none

/-- An attribute value handed to a helper. -/
inductive AttributeValue where
  | StringValue (s : String)
  | UintegerValue (n : Nat)
  | DataRateValue (bps : Option Nat)
  deriving DecidableEq

/-- An `OnOffHelper`: socket factory, destination port at `m_serverAddress`, and the
attributes set so far, oldest first. -/
structure OnOffHelper where
  protocol : String
  remotePort : Nat
  attrs : List (String × AttributeValue)
  deriving DecidableEq

/-- Library `OnOffHelper::SetAttribute`. -/
def OnOffHelper.SetAttribute (h : OnOffHelper) (name : String) (v : AttributeValue) :
    OnOffHelper :=
  { h with attrs := h.attrs ++ [(name, v)] }

/-- Library `OnOffHelper::SetConstantRate(dataRate, packetSize)`: on time constant
1000, off time constant 0, the given rate and packet size. -/
def OnOffHelper.SetConstantRate (h : OnOffHelper) (dataRate : Option Nat) (packetSize : Nat) :
    OnOffHelper :=
  (((h.SetAttribute "OnTime" (.StringValue "ns3::ConstantRandomVariable[Constant=1000]")
    ).SetAttribute "OffTime" (.StringValue "ns3::ConstantRandomVariable[Constant=0]")
    ).SetAttribute "DataRate" (.DataRateValue dataRate)
    ).SetAttribute "PacketSize" (.UintegerValue packetSize)

/-- The value an attribute ends up with: the one set last. -/
def OnOffHelper.attr (h : OnOffHelper) (name : String) : Option AttributeValue :=
  h.attrs.reverse.lookup name

/-- An installed on/off source with its attributes resolved. -/
structure OnOffApplication where
  protocol : String
  remotePort : Nat
  dataRate : Nat
  onTime : RandomVariable
  offTime : RandomVariable
  tos : Nat
  deriving DecidableEq

/-- The data rate of the source a helper installs (library default 500 kbit/s). -/
def OnOffHelper.dataRate (h : OnOffHelper) : Option Nat :=
  match h.attr "DataRate" with
  | none => some 500000
  | some (.StringValue s) => DataRate s
  | some (.DataRateValue r) => r
  | some (.UintegerValue _) => none

/-- An on or off time of the source a helper installs (library default constant 1.0). -/
def OnOffHelper.randomVariable (h : OnOffHelper) (name : String) : Option RandomVariable :=
  match h.attr name with
  | none => some (.Constant ⟨10, 1⟩)
  | some (.StringValue s) => parseRandomVariable s
  | some _ => none

/-- The type-of-service byte of the source a helper installs (library default 0). -/
def OnOffHelper.tos (h : OnOffHelper) : Option Nat :=
  match h.attr "Tos" with
  | none => some 0
  | some (.UintegerValue n) => some n
  | some _ => none

/-- The source that `OnOffHelper::Install` creates, if every attribute is well formed. -/
def OnOffHelper.resolve (h : OnOffHelper) : Option OnOffApplication :=
  match h.dataRate, h.randomVariable "OnTime", h.randomVariable "OffTime", h.tos with
  | some r, some tOn, some tOff, some t => some ⟨h.protocol, h.remotePort, r, tOn, tOff, t⟩
  | _, _, _, _ => none

/-- What an installed application is: a packet sink listening on a port, or an on/off
source described by its helper. -/
inductive AppObject where
  | sink (protocol : String) (port : Nat)
  | onoff (helper : OnOffHelper)
  deriving DecidableEq

/-- An installed application: node, object, start time, stop time if any. -/
structure Application where
  node : Nat
  obj : AppObject
  m_startTime : ℚ
  m_stopTime : Option ℚ
  deriving DecidableEq

/-! ## Nodes (constructor, lines 51-60) -/

/-- Library `NodeContainer::Create(n)` when `next` nodes exist already: the new node
identifiers. -/
def Create (next n : Nat) : List Nat := (List.range n).map fun i => next + i

/-- Student classrooms, 15 nodes. -/
def m_estudiantesNodes : List Nat := Create 0 15
/-- Staff classrooms, 15 nodes. -/
def m_profesoresNodes : List Nat := Create 15 15
/-- Computer rooms, 2 nodes. -/
def m_informaticaNodes : List Nat := Create 30 2
/-- Administration, 1 node. -/
def m_adminNodes : List Nat := Create 32 1
/-- Guest access points, 10 nodes. -/
def m_invitadosNodes : List Nat := Create 33 10
/-- The central router. -/
def m_routerNode : List Nat := Create 43 1
/-- The server on the Internet. -/
def m_internetNode : List Nat := Create 44 1

/-- Library `NodeContainer::Get(i)`; the program never asks for a node out of range. -/
def Get (c : List Nat) (i : Nat) : Nat := c.getD i 0

/-! ## Traffic sources (lines 248-300) -/

/-- Method `SchoolNetwork::CreateCBR` (lines 248-260). -/
def CreateCBR (node : Nat) (start : ℚ) : Application :=
  let onoff : OnOffHelper := ⟨"ns3::UdpSocketFactory", 9000, []⟩
  let onoff := onoff.SetConstantRate (DataRate "2Mbps") 512
  let onoff := onoff.SetAttribute "OnTime" (.StringValue "ns3::ConstantRandomVariable[Constant=1.0]")
  let onoff := onoff.SetAttribute "OffTime" (.StringValue "ns3::ConstantRandomVariable[Constant=0.0]")
  let onoff := onoff.SetAttribute "Tos" (.UintegerValue 0xB8)
  { node := node, obj := .onoff onoff, m_startTime := Seconds start, m_stopTime := some (Seconds 10.0) }

/-- Method `SchoolNetwork::CreateBursty` (lines 262-274). -/
def CreateBursty (node : Nat) (start : ℚ) : Application :=
  let onoff : OnOffHelper := ⟨"ns3::UdpSocketFactory", 9001, []⟩
  let onoff := onoff.SetAttribute "DataRate" (.StringValue "500kbps")
  let onoff := onoff.SetAttribute "OnTime" (.StringValue "ns3::ExponentialRandomVariable[Mean=1.0]")
  let onoff := onoff.SetAttribute "OffTime" (.StringValue "ns3::ExponentialRandomVariable[Mean=1.0]")
  let onoff := onoff.SetAttribute "Tos" (.UintegerValue 0x48)
  { node := node, obj := .onoff onoff, m_startTime := Seconds start, m_stopTime := some (Seconds 10.0) }

/-- Method `SchoolNetwork::CreateWebBackground` (lines 276-286). -/
def CreateWebBackground (node : Nat) (start : ℚ) : Application :=
  let onoff : OnOffHelper := ⟨"ns3::TcpSocketFactory", 80, []⟩
  let onoff := onoff.SetConstantRate (DataRate "100kbps") 512
  let onoff := onoff.SetAttribute "Tos" (.UintegerValue 0x00)
  { node := node, obj := .onoff onoff, m_startTime := Seconds start, m_stopTime := some (Seconds 10.0) }

/-- Method `SchoolNetwork::CreateWebStandard` (lines 288-300). -/
def CreateWebStandard (node : Nat) (start : ℚ) : Application :=
  let onoff : OnOffHelper := ⟨"ns3::TcpSocketFactory", 8080, []⟩
  let onoff := onoff.SetAttribute "DataRate" (.StringValue "1Mbps")
  let onoff := onoff.SetAttribute "OnTime" (.StringValue "ns3::ExponentialRandomVariable[Mean=2.0]")
  let onoff := onoff.SetAttribute "OffTime" (.StringValue "ns3::ExponentialRandomVariable[Mean=5.0]")
  let onoff := onoff.SetAttribute "Tos" (.UintegerValue 0x28)
  { node := node, obj := .onoff onoff, m_startTime := Seconds start, m_stopTime := some (Seconds 10.0) }

/-! ## `SetupApplications` (lines 187-244) -/

/-- A packet sink installed on `node` and started at `start` (part A, lines 191-212). -/
def InstallSink (protocol : String) (port : Nat) (node : Nat) (start : ℚ) : Application :=
  { node := node, obj := .sink protocol port, m_startTime := Seconds start, m_stopTime := none }

/-- The sinks of part A, in the order `m_sinkCbr`, `m_sinkBursty`, `m_sinkWebBg`,
`m_sinkWebStd`. -/
def SetupSinks : List Application :=
  [InstallSink "ns3::UdpSocketFactory" 9000 (Get m_internetNode 0) 0.0,
   InstallSink "ns3::UdpSocketFactory" 9001 (Get m_internetNode 0) 0.0,
   InstallSink "ns3::TcpSocketFactory" 80 (Get m_internetNode 0) 0.0,
   InstallSink "ns3::TcpSocketFactory" 8080 (Get m_internetNode 0) 0.0]

/-- The traffic sources of part B, in program order. -/
def SetupSources : List Application :=
  ((List.range 15).flatMap fun i =>
    [CreateBursty (Get m_estudiantesNodes i) (1.0 + ((i : ℚ) * 0.1)),
     CreateCBR (Get m_estudiantesNodes i) (2.0 + ((i : ℚ) * 0.1)),
     CreateWebStandard (Get m_estudiantesNodes i) (1.0 + ((i : ℚ) * 0.2)),
     CreateBursty (Get m_profesoresNodes i) (1.5 + ((i : ℚ) * 0.1)),
     CreateCBR (Get m_profesoresNodes i) (2.5 + ((i : ℚ) * 0.1)),
     CreateWebStandard (Get m_profesoresNodes i) (1.5 + ((i : ℚ) * 0.2))]) ++
  ((List.range 10).map fun i =>
    CreateWebStandard (Get m_invitadosNodes i) (3.0 + ((i : ℚ) * 0.5))) ++
  [CreateBursty (Get m_adminNodes 0) 1.0] ++
  ((List.range 2).flatMap fun i =>
    [CreateBursty (Get m_informaticaNodes i) 1.0,
     CreateWebBackground (Get m_informaticaNodes i) 0.5])

/-- Method `SchoolNetwork::SetupApplications`: every application installed, sinks first. -/
def SetupApplications : List Application := SetupSinks ++ SetupSources

/-- The four traffic classes. -/
inductive TrafficClass where
  | Video
  | Bursty
  | WebBackground
  | WebStandard
  deriving DecidableEq

/-- The class a (socket factory, port) pair belongs to: that of the sink listening there. -/
def classOfPort (protocol : String) (port : Nat) : Option TrafficClass :=
  if protocol = "ns3::UdpSocketFactory" ∧ port = 9000 then some .Video
  else if protocol = "ns3::UdpSocketFactory" ∧ port = 9001 then some .Bursty
  else if protocol = "ns3::TcpSocketFactory" ∧ port = 80 then some .WebBackground
  else if protocol = "ns3::TcpSocketFactory" ∧ port = 8080 then some .WebStandard
  else none

/-- Socket factory and port of an application: where a sink listens, where a source sends. -/
def Application.endpoint (a : Application) : String × Nat :=
  match a.obj with
  | .sink protocol port => (protocol, port)
  | .onoff h => (h.protocol, h.remotePort)

/-- The traffic class of an application. -/
def Application.trafficClass (a : Application) : Option TrafficClass :=
  classOfPort a.endpoint.1 a.endpoint.2

/-- Number of sources of class `c` installed on node `n`. -/
def sourcesOn (n : Nat) (c : TrafficClass) : Nat :=
  (SetupSources.filter fun a => a.node = n ∧ a.trafficClass = some c).length

/-- Number of sources of class `c`. -/
def sourcesOfClass (c : TrafficClass) : Nat :=
  (SetupSources.filter fun a => a.trafficClass = some c).length

/-- The source an application is, with its attributes resolved; `none` for a sink. -/
def Application.source (a : Application) : Option OnOffApplication :=
  match a.obj with
  | .onoff h => h.resolve
  | .sink _ _ => none

/-- The constant, or the mean, of a random variable. -/
def RandomVariable.value : RandomVariable → ℚ
  | .Constant c => c.toRat
  | .Exponential mean => mean.toRat

/-- Whether a random variable is a constant. -/
def RandomVariable.isConstant : RandomVariable → Bool
  | .Constant _ => true
  | .Exponential _ => false

/-- A row of the profile table: socket factory, rate in bit/s, on time (constant or not,
and the constant or mean in seconds), off time likewise, type-of-service mark. -/
structure Profile where
  protocol : String
  rate : Nat
  onConstant : Bool
  onTime : ℚ
  offConstant : Bool
  offTime : ℚ
  tos : Nat

/-- The row of the profile table a source stands for. -/
def OnOffApplication.profile (s : OnOffApplication) : Profile :=
  ⟨s.protocol, s.dataRate, s.onTime.isConstant, s.onTime.value, s.offTime.isConstant,
   s.offTime.value, s.tos⟩

/-! # Lemmas -/

/-! ## Binary64 rounding -/

theorem abs_roundHalfEven_sub_le (x : ℚ) : |(roundHalfEven x : ℚ) - x| ≤ 1 / 2 := by
  have h0 : (⌊x⌋ : ℚ) ≤ x := Int.floor_le x
  have h1 : x < (⌊x⌋ : ℚ) + 1 := Int.lt_floor_add_one x
  unfold roundHalfEven
  split_ifs with a b c
  · rw [abs_le]; constructor <;> linarith
  · push_cast; rw [abs_le]; constructor <;> linarith
  · rw [abs_le]; constructor <;> linarith
  · push_cast; rw [abs_le]; constructor <;> linarith

theorem roundHalfEven_eq_of_abs_sub_lt (x : ℚ) (n : ℤ) (h : |x - n| < 1 / 2) :
    roundHalfEven x = n := by
  have h2 := abs_roundHalfEven_sub_le x
  rw [abs_lt] at h
  rw [abs_le] at h2
  have h3 : ((roundHalfEven x : ℤ) : ℚ) - n < 1 := by linarith
  have h4 : (-1 : ℚ) < ((roundHalfEven x : ℤ) : ℚ) - n := by linarith
  have h5 : roundHalfEven x - n < 1 := by exact_mod_cast h3
  have h6 : -1 < roundHalfEven x - n := by exact_mod_cast h4
  omega

theorem roundHalfEven_intCast (n : ℤ) : roundHalfEven (n : ℚ) = n :=
  roundHalfEven_eq_of_abs_sub_lt _ n (by simp)

theorem two_zpow_pos (k : ℤ) : (0 : ℚ) < 2 ^ k := zpow_pos (by norm_num) k

/-- The last place is at most `2 ^ k` for a nonzero number below `2 ^ (k + 53)`. -/
theorem ulpExp_le (q : ℚ) (k : ℤ) (hk : -1074 ≤ k) (h0 : q ≠ 0) (hq : |q| < 2 ^ (k + 53)) :
    ulpExp q ≤ k := by
  unfold ulpExp
  apply max_le _ hk
  have := (Int.lt_zpow_iff_log_lt (b := 2) (by norm_num) (abs_pos.2 h0)).1
    (by exact_mod_cast hq)
  omega

theorem roundQ_zero : roundQ 0 = 0 := by
  simp [roundQ, roundHalfEven]

/-- A number with at most 53 significant bits and a last place not below that of the
subnormal numbers is its own rounding. -/
theorem roundQ_exact (m k : ℤ) (hm : |m| < 2 ^ 53) (hk : -1074 ≤ k) :
    roundQ ((m : ℚ) * 2 ^ k) = (m : ℚ) * 2 ^ k := by
  rcases eq_or_ne m 0 with rfl | hm0
  · simp [roundQ_zero]
  have hq0 : (m : ℚ) * 2 ^ k ≠ 0 :=
    mul_ne_zero (by exact_mod_cast hm0) (ne_of_gt (two_zpow_pos k))
  have hq : |(m : ℚ) * 2 ^ k| < 2 ^ (k + 53) := by
    rw [abs_mul, abs_of_pos (two_zpow_pos k), zpow_add₀ (by norm_num : (2 : ℚ) ≠ 0), mul_comm]
    have h1 : ((|m| : ℤ) : ℚ) < ((2 ^ 53 : ℤ) : ℚ) := by exact_mod_cast hm
    have h2 : (|(m : ℚ)|) < 2 ^ (53 : ℤ) := by
      rw [Int.cast_abs] at h1
      norm_num at h1 ⊢
      exact h1
    exact mul_lt_mul_of_pos_left h2 (two_zpow_pos k)
  have he := ulpExp_le _ k hk hq0 hq
  obtain ⟨d, hd⟩ : ∃ d : ℕ, k = ulpExp ((m : ℚ) * 2 ^ k) + d :=
    ⟨(k - ulpExp ((m : ℚ) * 2 ^ k)).toNat, by omega⟩
  have hdiv : (m : ℚ) * 2 ^ k / 2 ^ ulpExp ((m : ℚ) * 2 ^ k) = ((m * 2 ^ d : ℤ) : ℚ) := by
    have hne : (2 : ℚ) ^ ulpExp ((m : ℚ) * 2 ^ k) ≠ 0 := ne_of_gt (two_zpow_pos _)
    rw [div_eq_iff hne]
    conv_lhs => rw [hd]
    rw [zpow_add₀ (by norm_num : (2 : ℚ) ≠ 0)]
    push_cast
    rw [zpow_natCast]
    ring
  unfold roundQ
  rw [hdiv, roundHalfEven_intCast, ← hdiv]
  exact div_mul_cancel₀ _ (ne_of_gt (two_zpow_pos _))

/-- Rounding error in terms of the last place. -/
theorem abs_roundQ_sub_le_ulp (q : ℚ) : |roundQ q - q| ≤ 2 ^ ulpExp q / 2 := by
  have hp := two_zpow_pos (ulpExp q)
  have h := abs_roundHalfEven_sub_le (q / 2 ^ ulpExp q)
  have e : roundQ q - q = ((roundHalfEven (q / 2 ^ ulpExp q) : ℚ) - q / 2 ^ ulpExp q)
      * 2 ^ ulpExp q := by
    unfold roundQ
    field_simp
  rw [e, abs_mul, abs_of_pos hp]
  calc |(roundHalfEven (q / 2 ^ ulpExp q) : ℚ) - q / 2 ^ ulpExp q| * 2 ^ ulpExp q
      ≤ 1 / 2 * 2 ^ ulpExp q := mul_le_mul_of_nonneg_right h (le_of_lt hp)
    _ = 2 ^ ulpExp q / 2 := by ring

/-- In the range of the normal numbers the rounding error is at most `2 ^ (-53)` of the
number. -/
theorem abs_roundQ_sub_le (q : ℚ) (hq : 2 ^ (-1022 : ℤ) ≤ |q|) :
    |roundQ q - q| ≤ 2 ^ (-53 : ℤ) * |q| := by
  have h0 : 0 < |q| := lt_of_lt_of_le (two_zpow_pos _) hq
  have hlog : (-1022 : ℤ) ≤ Int.log 2 |q| :=
    (Int.zpow_le_iff_le_log (b := 2) (by norm_num) h0).1 (by exact_mod_cast hq)
  have hu : ulpExp q = Int.log 2 |q| - 52 := by
    unfold ulpExp
    exact max_eq_left (by omega)
  have hle : (2 : ℚ) ^ Int.log 2 |q| ≤ |q| := by
    have := Int.zpow_log_le_self (b := 2) (by norm_num) h0
    exact_mod_cast this
  have h := abs_roundQ_sub_le_ulp q
  rw [hu] at h
  have e : (2 : ℚ) ^ (Int.log 2 |q| - 52) / 2 = 2 ^ (-53 : ℤ) * 2 ^ Int.log 2 |q| := by
    rw [show Int.log 2 |q| - 52 = Int.log 2 |q| + (-52) by ring,
      zpow_add₀ (by norm_num : (2 : ℚ) ≠ 0)]
    norm_num
    ring
  rw [e] at h
  exact le_trans h (mul_le_mul_of_nonneg_left hle (le_of_lt (two_zpow_pos _)))

/-- A result of modest size does not overflow. -/
theorem round_eq_finite (q : ℚ) (hq : |q| ≤ 2 ^ (1023 : ℤ)) :
    Double.round q = .finite (roundQ q) := by
  have hlt : |roundQ q| < 2 ^ 1024 := by
    rcases eq_or_ne q 0 with rfl | h0
    · rw [roundQ_zero]; norm_num
    have hu : ulpExp q ≤ 971 := ulpExp_le q 971 (by norm_num) h0
      (lt_of_le_of_lt hq (by norm_num))
    have h := abs_roundQ_sub_le_ulp q
    have hz : (2 : ℚ) ^ ulpExp q ≤ 2 ^ (971 : ℤ) := zpow_le_zpow_right₀ (by norm_num) hu
    have h1 : |roundQ q| ≤ |roundQ q - q| + |q| := by
      have := abs_add (roundQ q - q) q
      simpa using this
    have h2 : (2 : ℚ) ^ (971 : ℤ) / 2 + 2 ^ (1023 : ℤ) < 2 ^ 1024 := by norm_num
    linarith
  unfold Double.round
  rw [if_neg (not_le.2 hlt)]

theorem Double.mul_finite (a b : ℚ) :
    Double.finite a * Double.finite b = Double.round (a * b) := rfl

theorem Double.div_finite (a b : ℚ) (hb : b ≠ 0) :
    Double.finite a / Double.finite b = Double.round (a / b) := by
  show Double.div _ _ = _
  simp [Double.div, hb]

/-- An integer below `2 ^ 53` in absolute value is a double. -/
theorem round_intCast (m : ℤ) (hm : |m| < 2 ^ 53) : Double.round (m : ℚ) = .finite m := by
  have he : roundQ (m : ℚ) = m := by
    have := roundQ_exact m 0 hm (by norm_num)
    simpa using this
  have hb : |(m : ℚ)| ≤ 2 ^ (1023 : ℤ) := by
    have h1 : ((|m| : ℤ) : ℚ) < ((2 ^ 53 : ℤ) : ℚ) := by exact_mod_cast hm
    rw [Int.cast_abs] at h1
    have h2 : (((2 : ℤ) ^ 53 : ℤ) : ℚ) ≤ 2 ^ (1023 : ℤ) := by norm_num
    linarith
  rw [round_eq_finite _ hb, he]

theorem round_natCast (n : ℕ) (hn : n < 2 ^ 53) : Double.round (n : ℚ) = .finite n := by
  have := round_intCast (n : ℤ) (by
    rw [abs_of_nonneg (Int.natCast_nonneg n)]
    exact_mod_cast hn)
  simpa using this

/-- Half an integer below `2 ^ 53` in absolute value is a double. -/
theorem round_half_intCast (m : ℤ) (hm : |m| < 2 ^ 53) :
    Double.round ((m : ℚ) / 2) = .finite ((m : ℚ) / 2) := by
  have e : (m : ℚ) / 2 = (m : ℚ) * 2 ^ (-1 : ℤ) := by norm_num [div_eq_mul_inv]
  have he : roundQ ((m : ℚ) / 2) = (m : ℚ) / 2 := by
    rw [e]
    exact roundQ_exact m (-1) hm (by norm_num)
  have hb : |(m : ℚ) / 2| ≤ 2 ^ (1023 : ℤ) := by
    have h1 : ((|m| : ℤ) : ℚ) < ((2 ^ 53 : ℤ) : ℚ) := by exact_mod_cast hm
    rw [Int.cast_abs] at h1
    have h2 : (((2 : ℤ) ^ 53 : ℤ) : ℚ) ≤ 2 ^ (1023 : ℤ) := by norm_num
    rw [abs_div, abs_of_pos (by norm_num : (0 : ℚ) < 2)]
    have h3 : 0 ≤ |(m : ℚ)| := abs_nonneg _
    linarith
  rw [round_eq_finite _ hb, he]

/-- A positive result of moderate size is a number within `2 ^ (-53)` of the exact one. -/
theorem round_near (q : ℚ) (h1 : 2 ^ (-200 : ℤ) ≤ q) (h2 : q ≤ 2 ^ (200 : ℤ)) :
    ∃ r, Double.round q = .finite r ∧ q * (1 - 2 ^ (-53 : ℤ)) ≤ r ∧
      r ≤ q * (1 + 2 ^ (-53 : ℤ)) := by
  have hpos : 0 < q := lt_of_lt_of_le (two_zpow_pos _) h1
  have habs : |q| = q := abs_of_pos hpos
  have hlo : (2 : ℚ) ^ (-1022 : ℤ) ≤ |q| := by
    rw [habs]
    exact le_trans (zpow_le_zpow_right₀ (by norm_num) (by norm_num)) h1
  have hhi : |q| ≤ 2 ^ (1023 : ℤ) := by
    rw [habs]
    exact le_trans h2 (zpow_le_zpow_right₀ (by norm_num) (by norm_num))
  have h := abs_roundQ_sub_le q hlo
  rw [habs, abs_le] at h
  exact ⟨roundQ q, round_eq_finite q hhi, by linarith, by linarith⟩

/-- The same bound with plain numerals. -/
theorem round_near_num (q : ℚ) (h1 : 1 / 2 ^ 200 ≤ q) (h2 : q ≤ 2 ^ 200) :
    ∃ r, Double.round q = .finite r ∧ q * (1 - 1 / 2 ^ 53) ≤ r ∧ r ≤ q * (1 + 1 / 2 ^ 53) := by
  have h := round_near q (by norm_num at h1 ⊢; exact h1) (by norm_num at h2 ⊢; exact h2)
  norm_num at h ⊢
  exact h

theorem round_zero : Double.round 0 = .finite 0 := by
  have := round_natCast 0 (by norm_num)
  simpa using this

/-- The expression `(B * 8.0) / c / t` of the source, evaluated in binary64 for a byte
count `B` below `2 ^ 64`: the result is a number within `2 ^ (-50)` of the exact one. -/
theorem scaled_rate_near (B : ℕ) (hB : B < 2 ^ 64) (c t : ℚ) (hc1 : 1 ≤ c)
    (hc2 : c ≤ 2 ^ 20) (ht1 : 1 / 2 ^ 64 ≤ t) (ht2 : t ≤ 2 ^ 64) :
    ∃ r, Double.ofU64 B * Double.finite 8 / Double.finite c / Double.finite t = .finite r ∧
      |r - (B : ℚ) * 8 / c / t| ≤ 1 / 2 ^ 50 * ((B : ℚ) * 8 / c / t) := by
  have hc0 : 0 < c := by linarith
  have ht0 : 0 < t := lt_of_lt_of_le (by norm_num) ht1
  rcases Nat.eq_zero_or_pos B with rfl | hpos
  · refine ⟨0, ?_, by simp⟩
    rw [Double.ofU64, Nat.cast_zero, round_zero, Double.mul_finite, zero_mul, round_zero,
      Double.div_finite _ _ (ne_of_gt hc0), zero_div, round_zero,
      Double.div_finite _ _ (ne_of_gt ht0), zero_div, round_zero]
  have hx1 : (1 : ℚ) ≤ (B : ℚ) := by exact_mod_cast hpos
  have hx2 : (B : ℚ) ≤ 18446744073709551616 := by
    have h : B ≤ 18446744073709551616 := le_of_lt hB
    exact_mod_cast h
  norm_num at hc2 ht1 ht2
  -- conversion
  obtain ⟨r1, e1, l1, u1⟩ := round_near_num (B : ℚ) (by norm_num; linarith)
    (by norm_num; linarith)
  norm_num at l1 u1
  -- product by 8
  obtain ⟨r2, e2, l2, u2⟩ := round_near_num (r1 * 8) (by norm_num; linarith)
    (by norm_num; linarith)
  norm_num at l2 u2
  -- division by c
  obtain ⟨r3, e3, l3, u3⟩ := round_near_num (r2 / c)
    (by rw [le_div_iff₀ hc0]; norm_num; linarith)
    (by rw [div_le_iff₀ hc0]; norm_num; linarith)
  norm_num at l3 u3
  have hY0 : 0 ≤ (B : ℚ) * 8 / c := by positivity
  have l3' : (B : ℚ) * 8 / c * (1 - 1 / 2 ^ 53) ^ 2 ≤ r2 / c := by
    have : (B : ℚ) * 8 * (1 - 1 / 2 ^ 53) ^ 2 ≤ r2 := by norm_num; linarith
    calc (B : ℚ) * 8 / c * (1 - 1 / 2 ^ 53) ^ 2
        = ((B : ℚ) * 8 * (1 - 1 / 2 ^ 53) ^ 2) / c := by ring
      _ ≤ r2 / c := div_le_div_of_nonneg_right this (le_of_lt hc0)
  have u3' : r2 / c ≤ (B : ℚ) * 8 / c * (1 + 1 / 2 ^ 53) ^ 2 := by
    have : r2 ≤ (B : ℚ) * 8 * (1 + 1 / 2 ^ 53) ^ 2 := by norm_num; linarith
    calc r2 / c ≤ ((B : ℚ) * 8 * (1 + 1 / 2 ^ 53) ^ 2) / c :=
          div_le_div_of_nonneg_right this (le_of_lt hc0)
      _ = (B : ℚ) * 8 / c * (1 + 1 / 2 ^ 53) ^ 2 := by ring
  -- division by t
  have hr2l : 4 ≤ r2 := by linarith
  have hr2u : r2 ≤ 2 ^ 68 := by norm_num; linarith
  have hq3l : 1 / 2 ^ 18 ≤ r2 / c := by
    rw [le_div_iff₀ hc0]; norm_num; linarith
  have hq3u : r2 / c ≤ 2 ^ 68 := by
    rw [div_le_iff₀ hc0]; norm_num at hr2u ⊢; nlinarith
  norm_num at hq3l hq3u
  obtain ⟨r4, e4, l4, u4⟩ := round_near_num (r3 / t)
    (by rw [le_div_iff₀ ht0]; norm_num; nlinarith)
    (by rw [div_le_iff₀ ht0]; norm_num; nlinarith)
  norm_num at l4 u4
  have hZ0 : 0 ≤ (B : ℚ) * 8 / c / t := by positivity
  have l4' : (B : ℚ) * 8 / c / t * (1 - 1 / 2 ^ 53) ^ 3 ≤ r3 / t := by
    have : (B : ℚ) * 8 / c * (1 - 1 / 2 ^ 53) ^ 3 ≤ r3 := by
      norm_num at l3' ⊢; linarith
    calc (B : ℚ) * 8 / c / t * (1 - 1 / 2 ^ 53) ^ 3
        = ((B : ℚ) * 8 / c * (1 - 1 / 2 ^ 53) ^ 3) / t := by ring
      _ ≤ r3 / t := div_le_div_of_nonneg_right this (le_of_lt ht0)
  have u4' : r3 / t ≤ (B : ℚ) * 8 / c / t * (1 + 1 / 2 ^ 53) ^ 3 := by
    have : r3 ≤ (B : ℚ) * 8 / c * (1 + 1 / 2 ^ 53) ^ 3 := by
      norm_num at u3' ⊢; linarith
    calc r3 / t ≤ ((B : ℚ) * 8 / c * (1 + 1 / 2 ^ 53) ^ 3) / t :=
          div_le_div_of_nonneg_right this (le_of_lt ht0)
      _ = (B : ℚ) * 8 / c / t * (1 + 1 / 2 ^ 53) ^ 3 := by ring
  refine ⟨r4, ?_, ?_⟩
  · rw [Double.ofU64, e1, Double.mul_finite, e2, Double.div_finite _ _ (ne_of_gt hc0), e3,
      Double.div_finite _ _ (ne_of_gt ht0), e4]
  · rw [abs_le]
    norm_num at l4' u4' ⊢
    constructor <;> linarith

theorem lit_8_double : Double.lit 8.0 = .finite 8 := by
  have := round_natCast 8 (by norm_num)
  norm_num [Double.lit] at this ⊢
  exact this

theorem lit_1e6_double : Double.lit 1e6 = .finite 1000000 := by
  have := round_natCast 1000000 (by norm_num)
  norm_num [Double.lit] at this ⊢
  exact this

theorem lit_1000_double : Double.lit 1000.0 = .finite 1000 := by
  have := round_natCast 1000 (by norm_num)
  norm_num [Double.lit] at this ⊢
  exact this

theorem lit_12_double : Double.lit 12.0 = .finite 12 := by
  have := round_natCast 12 (by norm_num)
  norm_num [Double.lit] at this ⊢
  exact this

/-- A rational that is an integer below `2 ^ 53` in absolute value is a double. -/
theorem round_of_int (q : ℚ) (m : ℤ) (hq : q = m) (hm : |m| < 2 ^ 53) :
    Double.round q = .finite q := by
  rw [hq]
  exact round_intCast m hm

/-- A rational equal to an integer below `2 ^ 53` in absolute value rounds to it. -/
theorem round_eq (q r : ℚ) (m : ℤ) (hq : q = m) (hr : r = m) (hm : |m| < 2 ^ 53) :
    Double.round q = .finite r := by
  rw [hq, hr]
  exact round_intCast m hm

/-- A rational that is half an integer below `2 ^ 53` in absolute value is a double. -/
theorem round_of_half (q : ℚ) (m : ℤ) (hq : q = (m : ℚ) / 2) (hm : |m| < 2 ^ 53) :
    Double.round q = .finite q := by
  rw [hq]
  exact round_half_intCast m hm

theorem GetTotalRx_lt (s : PacketSink) : s.GetTotalRx < 2 ^ 64 :=
  Nat.mod_lt _ (by norm_num)

/-- The sample times of the run are doubles. -/
theorem GetSeconds_sampleTime (k : Nat) (hk : k ≤ 22) :
    GetSeconds (sampleTime k) = .finite (sampleTime k) := by
  apply round_of_half _ ((k : ℤ) + 2)
  · simp only [sampleTime]
    push_cast
    ring
  · rw [abs_of_nonneg (by positivity)]
    have : (k : ℤ) ≤ 22 := by exact_mod_cast hk
    norm_num
    linarith

/-- The rate of the sampler for a positive time of moderate size: a number within
`2 ^ (-50)` of the exact quotient. -/
theorem mbps_near (sink : PacketSink) (t : ℚ) (ht1 : 1 / 2 ^ 64 ≤ t) (ht2 : t ≤ 2 ^ 64) :
    ∃ r, mbps sink (.finite t) = .finite r ∧
      |r - (sink.GetTotalRx : ℚ) * 8 / 10 ^ 6 / t|
        ≤ 1 / 2 ^ 50 * ((sink.GetTotalRx : ℚ) * 8 / 10 ^ 6 / t) := by
  have h := scaled_rate_near sink.GetTotalRx (GetTotalRx_lt sink) 1000000 t (by norm_num)
    (by norm_num) ht1 ht2
  simp only [mbps, lit_8_double, lit_1e6_double]
  norm_num at h ⊢
  exact h

/-- The rate of the final report: a number within `2 ^ (-50)` of the exact quotient. -/
theorem kbps_near (sink : PacketSink) :
    ∃ r, kbps sink = .finite r ∧
      |r - (sink.GetTotalRx : ℚ) * 8 / 1000 / 12|
        ≤ 1 / 2 ^ 50 * ((sink.GetTotalRx : ℚ) * 8 / 1000 / 12) := by
  have h := scaled_rate_near sink.GetTotalRx (GetTotalRx_lt sink) 1000 12 (by norm_num)
    (by norm_num) (by norm_num) (by norm_num)
  simp only [kbps, lit_8_double, lit_1000_double, lit_12_double]
  exact h

/-- What the final report shows is within half a hundredth of the double. -/
theorem shownFixed_near (r : ℚ) :
    ∃ s, shownFixed 2 (.finite r) = some s ∧ |s - r| ≤ 1 / 200 := by
  refine ⟨_, rfl, ?_⟩
  have h := abs_roundHalfEven_sub_le (r * 10 ^ 2)
  rw [abs_le] at h ⊢
  constructor
  · linarith
  · linarith

/-! ## Streams -/

theorem lit_half : (0.5 : ℚ) = 1 / 2 := by norm_num

theorem lit_1 : (1.0 : ℚ) = 1 := by norm_num

theorem lit_12 : (12.0 : ℚ) = 12 := by norm_num

theorem splitOn_ne_nil {α : Type} [DecidableEq α] (sep : α) (l : List α) :
    splitOn sep l ≠ [] := by
  cases l with
  | nil => simp [splitOn]
  | cons x xs =>
    simp only [splitOn]
    split
    · simp
    · split <;> simp

theorem splitOn_of_not_mem {α : Type} [DecidableEq α] (sep : α) (l : List α) (h : sep ∉ l) :
    splitOn sep l = [l] := by
  induction l with
  | nil => rfl
  | cons x xs ih =>
    have hx : x ≠ sep := fun e => h (by simp [e])
    have hxs : sep ∉ xs := fun e => h (by simp [e])
    simp [splitOn, hx, ih hxs]

theorem splitOn_append_sep {α : Type} [DecidableEq α] (sep : α) (l rest : List α)
    (h : sep ∉ l) : splitOn sep (l ++ sep :: rest) = l :: splitOn sep rest := by
  induction l with
  | nil => simp [splitOn]
  | cons x xs ih =>
    have hx : x ≠ sep := fun e => h (by simp [e])
    have hxs : sep ∉ xs := fun e => h (by simp [e])
    simp [splitOn, hx, ih hxs]

theorem joinLines_append (ls : List (List Out)) (l : List Out) :
    joinLines ls ++ (l ++ [Out.endl]) = joinLines (ls ++ [l]) := by
  simp [joinLines, List.flatMap_append]

theorem splitOn_joinLines (ls : List (List Out)) (h : ∀ l ∈ ls, Out.endl ∉ l) :
    splitOn Out.endl (joinLines ls) = ls ++ [[]] := by
  induction ls with
  | nil => rfl
  | cons l ls ih =>
    have h1 : Out.endl ∉ l := h l (by simp)
    have h2 : ∀ m ∈ ls, Out.endl ∉ m := fun m hm => h m (by simp [hm])
    have e : joinLines (l :: ls) = l ++ Out.endl :: joinLines ls := by
      simp [joinLines]
    rw [e, splitOn_append_sep _ _ _ h1, ih h2]
    rfl

theorem lines_joinLines (ls : List (List Out)) (h : ∀ l ∈ ls, Out.endl ∉ l) :
    lines (joinLines ls) = ls := by
  simp [lines, splitOn_joinLines ls h]

theorem SimulatorRun_succ (rx : ℚ → SinkTotals) (n : Nat) (w : SchoolNetwork) :
    SimulatorRun rx (n + 1) w = runStep rx (SimulatorRun rx n w) := by
  induction n generalizing w with
  | zero => simp [SimulatorRun, runStep]
  | succ n ih =>
    rw [SimulatorRun]
    by_cases hd : (w.sim.m_events.isEmpty || w.sim.m_stop) = true
    · rw [if_pos hd, SimulatorRun, if_pos hd, runStep, if_pos hd]
    · rw [if_neg hd, ih]
      conv_rhs => rw [SimulatorRun, if_neg hd]

/-! ## The run -/

/-- One firing: a row is appended to the data file and the next firing scheduled. -/
theorem MonitorThroughput_eq (self : SchoolNetwork) :
    MonitorThroughput self =
      { self with
        m_throughputStream := self.m_throughputStream ++
          (rowItems self.m_sinkCbr self.m_sinkBursty self.m_sinkWebStd self.sim.Now
            ++ [Out.endl])
        sim := self.sim.Schedule (1 / 2) .MonitorThroughput } := by
  simp only [MonitorThroughput, rowItems, mbps, Seconds, lit_half, List.cons_append,
    List.nil_append]

/-- What one firing writes: the time, the three rates, tabs between them, `endl`. -/
theorem written_eq (self : SchoolNetwork) :
    written self =
      rowItems self.m_sinkCbr self.m_sinkBursty self.m_sinkWebStd self.sim.Now
        ++ [Out.endl] := by
  simp [written, MonitorThroughput_eq]

theorem Insert_perm (e : Event) (l : List Event) : (Insert e l).Perm (e :: l) := by
  induction l with
  | nil => simp [Insert]
  | cons x xs ih =>
    simp only [Insert]
    split
    · exact List.Perm.refl _
    · exact (List.Perm.cons x ih).trans (List.Perm.swap e x xs)

theorem rowsUpTo_succ (rx : ℚ → SinkTotals) (n : Nat) :
    rowsUpTo rx (n + 1) = rowsUpTo rx n ++ [rowAt rx (sampleTime n)] := by
  simp [rowsUpTo, List.range_succ]

theorem sampleTime_succ (n : Nat) : sampleTime n + 1 / 2 = sampleTime (n + 1) := by
  simp only [sampleTime]; push_cast; ring

theorem sampleTime_lt (n : Nat) : sampleTime n < 12 ↔ n < 22 := by
  simp only [sampleTime]
  constructor
  · intro h
    have : (n : ℚ) < 22 := by linarith
    exact_mod_cast this
  · intro h
    have : (n : ℚ) < 22 := by exact_mod_cast h
    linarith

theorem events_RunSetup :
    RunSetup.sim.m_events = [⟨1, 0, .MonitorThroughput⟩, ⟨12, 1, .Stop⟩] := by
  norm_num [RunSetup, SchoolNetwork.new, Simulator.Schedule, Simulator.Stop, Insert, Seconds]

theorem runStep_stateAfter_zero (rx : ℚ → SinkTotals) :
    runStep rx (stateAfter rx 0) = stateAfter rx 1 := by
  have h1 : sampleTime 1 < 12 := (sampleTime_lt 1).2 (by decide)
  have h2 : sampleTime 1 = 1 + 1 / 2 := by simp [sampleTime]
  have h0 : sampleTime 0 = 1 := by simp [sampleTime]
  have hr : RunSetup = ⟨⟨0⟩, ⟨0⟩, ⟨0⟩, ⟨0⟩, joinLines [headerLine],
      ⟨0, 2, [⟨1, 0, .MonitorThroughput⟩, ⟨12, 1, .Stop⟩], false⟩, []⟩ := by
    norm_num [RunSetup, SchoolNetwork.new, Simulator.Schedule, Simulator.Stop, Insert, Seconds,
      joinLines, headerLine]
  have h32 : ((3 : ℚ) / 2 < 12) := by norm_num
  simp only [stateAfter, hr, runStep, ProcessOneEvent, MonitorThroughput_eq, Simulator.Schedule,
    Simulator.Now, List.isEmpty_cons, Bool.or_self, Bool.false_eq_true, if_false,
    joinLines_append, rowsUpTo_succ, rowsUpTo, List.range_zero, List.map_nil, List.nil_append,
    List.cons_append, rowAt, h0, eventsAfter]
  norm_num [Insert, h2, List.range_succ, h0]

theorem runStep_stateAfter_succ (rx : ℚ → SinkTotals) (n : Nat) (h : n + 1 < 22) :
    runStep rx (stateAfter rx (n + 1)) = stateAfter rx (n + 2) := by
  have hs : sampleTime (n + 1) + 1 / 2 = sampleTime (n + 2) := sampleTime_succ (n + 1)
  have hj := joinLines_append (headerLine :: rowsUpTo rx (n + 1))
    (rowAt rx (sampleTime (n + 1)))
  simp only [List.cons_append] at hj
  simp only [runStep, stateAfter, eventsAfter, if_pos h, ProcessOneEvent, MonitorThroughput_eq,
    Simulator.Now, Simulator.Schedule, List.isEmpty_cons, Bool.or_self, Bool.false_eq_true,
    if_false, hs, rowsUpTo_succ rx (n + 1)]
  rw [show rowItems ⟨(rx (sampleTime (n + 1))).cbr⟩ ⟨(rx (sampleTime (n + 1))).bursty⟩
      ⟨(rx (sampleTime (n + 1))).webStd⟩ (sampleTime (n + 1)) = rowAt rx (sampleTime (n + 1))
    from rfl, hj]
  by_cases h2 : n + 2 < 22
  · have := (sampleTime_lt (n + 2)).2 h2
    simp [Insert, this, h2]
  · have := mt (sampleTime_lt (n + 2)).1 h2
    simp [Insert, this, h2]

theorem runStep_stateAfter_last (rx : ℚ → SinkTotals) :
    runStep rx (stateAfter rx 22) = stateStopped rx := by
  have h21 : sampleTime 21 = 23 / 2 := by norm_num [sampleTime]
  have h22 : sampleTime 22 = 12 := by norm_num [sampleTime]
  simp [runStep, stateAfter, eventsAfter, ProcessOneEvent, stateStopped, h21, h22]

theorem runStep_stateStopped (rx : ℚ → SinkTotals) :
    runStep rx (stateStopped rx) = stateStopped rx := by
  simp [runStep, stateStopped]

/-- The run in closed form: 22 firings of the sampler, then the stop. -/
theorem SimulatorRun_RunSetup (rx : ℚ → SinkTotals) (n : Nat) :
    SimulatorRun rx n RunSetup = if n ≤ 22 then stateAfter rx n else stateStopped rx := by
  induction n with
  | zero => simp [SimulatorRun, stateAfter]
  | succ n ih =>
    rw [SimulatorRun_succ, ih]
    by_cases h : n + 1 ≤ 22
    · rw [if_pos (by omega), if_pos h]
      cases n with
      | zero => exact runStep_stateAfter_zero rx
      | succ m => exact runStep_stateAfter_succ rx m (by omega)
    · rw [if_neg h]
      by_cases h2 : n ≤ 22
      · have : n = 22 := by omega
        subst this
        simpa using runStep_stateAfter_last rx
      · rw [if_neg h2]
        exact runStep_stateStopped rx

theorem endl_not_mem_rowItems (cbr bursty webStd : PacketSink) (now : ℚ) :
    Out.endl ∉ rowItems cbr bursty webStd now := by
  simp [rowItems]

theorem endl_not_mem_lines (rx : ℚ → SinkTotals) (n : Nat) :
    ∀ l ∈ headerLine :: rowsUpTo rx n, Out.endl ∉ l := by
  intro l hl
  simp only [List.mem_cons, rowsUpTo, List.mem_map] at hl
  rcases hl with rfl | ⟨k, -, rfl⟩
  · simp [headerLine]
  · exact endl_not_mem_rowItems _ _ _ _

theorem values_rowItems (cbr bursty webStd : PacketSink) (now : ℚ) :
    values (rowItems cbr bursty webStd now)
      = [GetSeconds now, mbps cbr (GetSeconds now), mbps bursty (GetSeconds now),
         mbps webStd (GetSeconds now)] := by
  simp [values, rowItems]

theorem stream_stateAfter (rx : ℚ → SinkTotals) (n : Nat) :
    (stateAfter rx n).m_throughputStream = joinLines (headerLine :: rowsUpTo rx n) := by
  cases n with
  | zero => rfl
  | succ n => rfl

/-- The data file after `n` dispatches of the run. -/
theorem stream_SimulatorRun (rx : ℚ → SinkTotals) (n : Nat) :
    (SimulatorRun rx n RunSetup).m_throughputStream
      = joinLines (headerLine :: rowsUpTo rx (min n 22)) := by
  rw [SimulatorRun_RunSetup]
  by_cases h : n ≤ 22
  · rw [if_pos h, stream_stateAfter, Nat.min_eq_left h]
  · rw [if_neg h, Nat.min_eq_right (by omega)]
    rfl

/-- The data rows of the file after `n` dispatches of the run. -/
theorem dataRows_SimulatorRun (rx : ℚ → SinkTotals) (n : Nat) :
    dataRows (SimulatorRun rx n RunSetup).m_throughputStream
      = (List.range (min n 22)).map fun k =>
          [GetSeconds (sampleTime k),
           mbps ⟨(rx (sampleTime k)).cbr⟩ (GetSeconds (sampleTime k)),
           mbps ⟨(rx (sampleTime k)).bursty⟩ (GetSeconds (sampleTime k)),
           mbps ⟨(rx (sampleTime k)).webStd⟩ (GetSeconds (sampleTime k))] := by
  rw [stream_SimulatorRun, dataRows, lines_joinLines _ (endl_not_mem_lines rx _)]
  simp only [List.drop_one, List.tail_cons, rowsUpTo, List.map_map]
  apply List.map_congr_left
  intro k _
  simp only [Function.comp, rowAt, values_rowItems]

/-- The time stamps of the data file after `n` dispatches of the run. -/
theorem sampleTimes_SimulatorRun (rx : ℚ → SinkTotals) (n : Nat) :
    sampleTimes (SimulatorRun rx n RunSetup).m_throughputStream
      = (List.range (min n 22)).map fun k => Double.finite (sampleTime k) := by
  rw [sampleTimes, dataRows_SimulatorRun, List.filterMap_map]
  have key : ∀ l : List Nat, (∀ k ∈ l, k ≤ 22) →
      l.filterMap (List.head? ∘ fun k =>
          [GetSeconds (sampleTime k),
           mbps ⟨(rx (sampleTime k)).cbr⟩ (GetSeconds (sampleTime k)),
           mbps ⟨(rx (sampleTime k)).bursty⟩ (GetSeconds (sampleTime k)),
           mbps ⟨(rx (sampleTime k)).webStd⟩ (GetSeconds (sampleTime k))])
        = l.map fun k => Double.finite (sampleTime k) := by
    intro l
    induction l with
    | nil => intro _; rfl
    | cons k ks ih =>
      intro h
      have hk := GetSeconds_sampleTime k (h k (by simp))
      simp only [List.filterMap_cons, Function.comp, List.head?_cons, List.map_cons, hk]
      rw [← ih (fun j hj => h j (by simp [hj]))]
  apply key
  intro k hk
  have := List.mem_range.1 hk
  omega

theorem one_le_sampleTime (k : Nat) : 1 ≤ sampleTime k := by
  have : (0 : ℚ) ≤ (k : ℚ) := Nat.cast_nonneg k
  simp only [sampleTime]
  linarith

theorem sampleTime_le (k : Nat) (hk : k ≤ 22) : sampleTime k ≤ 12 := by
  have : (k : ℚ) ≤ 22 := by exact_mod_cast hk
  simp only [sampleTime]
  linarith

/-- Every pending firing of the sampler, at any point of the run, is at 1.0 s or later
and not after 12.0 s. -/
theorem pending_firing_ge_one (rx : ℚ → SinkTotals) (n : Nat) (e : Event)
    (he : e ∈ (SimulatorRun rx n RunSetup).sim.m_events) (hm : e.impl = .MonitorThroughput) :
    ∃ k : Nat, k ≤ 22 ∧ e.ts = sampleTime k := by
  rw [SimulatorRun_RunSetup] at he
  by_cases h : n ≤ 22
  · rw [if_pos h] at he
    cases n with
    | zero =>
      simp only [stateAfter, events_RunSetup, List.mem_cons, List.mem_singleton,
        List.not_mem_nil, or_false] at he
      rcases he with rfl | rfl
      · exact ⟨0, by norm_num, by norm_num [sampleTime]⟩
      · exact absurd hm (by decide)
    | succ m =>
      simp only [stateAfter, eventsAfter] at he
      split at he
      · simp only [List.mem_cons, List.mem_singleton, List.not_mem_nil, or_false] at he
        rcases he with rfl | rfl
        · exact ⟨m + 1, h, rfl⟩
        · exact absurd hm (by decide)
      · simp only [List.mem_cons, List.mem_singleton, List.not_mem_nil, or_false] at he
        rcases he with rfl | rfl
        · exact absurd hm (by decide)
        · exact ⟨m + 1, h, rfl⟩
  · rw [if_neg h] at he
    simp only [stateStopped, List.mem_singleton] at he
    subst he
    exact ⟨22, le_refl _, by norm_num [sampleTime]⟩

theorem chain_sampleTime (m : Nat) :
    List.Chain' (fun a b : Double => ∃ x y : ℚ, a = .finite x ∧ b = .finite y ∧ x < y ∧
      y - x = 1 / 2) ((List.range m).map fun k => Double.finite (sampleTime k)) := by
  rw [List.chain'_map]
  cases m with
  | zero => simp
  | succ m =>
    rw [List.chain'_range_succ]
    intro k _
    refine ⟨_, _, rfl, rfl, ?_, ?_⟩
    · simp only [sampleTime]
      push_cast
      linarith
    · simp only [sampleTime]
      push_cast
      ring

/-! ## Columns and report -/

theorem columns_row (fmt : Double → List Char) (hfmt : ∀ v, '\t' ∉ fmt v) (a b c d : Double) :
    columns fmt [.dbl a, .str "\t", .dbl b, .str "\t", .dbl c, .str "\t", .dbl d]
      = [fmt a, fmt b, fmt c, fmt d] := by
  have ht : "\t".toList = ['\t'] := rfl
  simp only [columns, render, ht, List.append_nil, List.singleton_append]
  rw [splitOn_append_sep _ _ _ (hfmt a), splitOn_append_sep _ _ _ (hfmt b),
    splitOn_append_sep _ _ _ (hfmt c), splitOn_of_not_mem _ _ (hfmt d)]

theorem columns_headerLine (fmt : Double → List Char) :
    columns fmt headerLine
      = ["# Time(s) ".toList, " CBR(Mbps) ".toList, " Bursty(Mbps) ".toList,
         " WebStd(Mbps)".toList] := by
  simp only [columns, headerLine, render, List.append_nil]
  decide

theorem lines_written (self : SchoolNetwork) :
    lines (written self) =
      [rowItems self.m_sinkCbr self.m_sinkBursty self.m_sinkWebStd self.sim.Now] := by
  rw [written_eq]
  exact lines_joinLines
    [rowItems self.m_sinkCbr self.m_sinkBursty self.m_sinkWebStd self.sim.Now]
    (by simp [rowItems])

/-- The report of `PrintFinalStats` in terms of the four sinks. -/
theorem finalStats_printed (cbr bursty webBg webStd : PacketSink) :
    finalStats
      ([.str "\n--- ESTADISTICAS FINALES (SERVIDOR) ---", .endl] ++
        printStat (Double.lit 12.0) "CBR (Video)" cbr ++
        printStat (Double.lit 12.0) "Bursty" bursty ++
        printStat (Double.lit 12.0) "Web Fondo" webBg ++
        printStat (Double.lit 12.0) "Web Std" webStd ++
        [.str "\n[GENERADOS] Archivos de salida:", .endl,
         .str " 1. \x27throughput-data.dat\x27 -> Usar Gnuplot/Excel para graficas.", .endl,
         .str " 2. \x27school-router-1.pcap\x27 -> Usar Wireshark para ver Prioridad (TOS).",
         .endl])
      = [("CBR (Video)", cbr.GetTotalRx, shownFixed 2 (kbps cbr)),
         ("Bursty", bursty.GetTotalRx, shownFixed 2 (kbps bursty)),
         ("Web Fondo", webBg.GetTotalRx, shownFixed 2 (kbps webBg)),
         ("Web Std", webStd.GetTotalRx, shownFixed 2 (kbps webStd))] := by
  have hj : ([.str "\n--- ESTADISTICAS FINALES (SERVIDOR) ---", .endl] ++
        printStat (Double.lit 12.0) "CBR (Video)" cbr ++
        printStat (Double.lit 12.0) "Bursty" bursty ++
        printStat (Double.lit 12.0) "Web Fondo" webBg ++
        printStat (Double.lit 12.0) "Web Std" webStd ++
        [.str "\n[GENERADOS] Archivos de salida:", .endl,
         .str " 1. \x27throughput-data.dat\x27 -> Usar Gnuplot/Excel para graficas.", .endl,
         .str " 2. \x27school-router-1.pcap\x27 -> Usar Wireshark para ver Prioridad (TOS).",
         .endl])
      = joinLines
        [[.str "\n--- ESTADISTICAS FINALES (SERVIDOR) ---"],
         (printStat (Double.lit 12.0) "CBR (Video)" cbr).dropLast,
         (printStat (Double.lit 12.0) "Bursty" bursty).dropLast,
         (printStat (Double.lit 12.0) "Web Fondo" webBg).dropLast,
         (printStat (Double.lit 12.0) "Web Std" webStd).dropLast,
         [.str "\n[GENERADOS] Archivos de salida:"],
         [.str " 1. \x27throughput-data.dat\x27 -> Usar Gnuplot/Excel para graficas."],
         [.str " 2. \x27school-router-1.pcap\x27 -> Usar Wireshark para ver Prioridad (TOS)."]] := by
    simp [joinLines, printStat]
  rw [finalStats, hj, lines_joinLines _ (by simp [printStat])]
  simp [printStat, parseStat, kbps]

/-- What `PrintFinalStats` appends to `std::cout`, read back. -/
theorem finalStats_PrintFinalStats (self : SchoolNetwork) :
    finalStats ((PrintFinalStats self).cout.drop self.cout.length)
      = [("CBR (Video)", self.m_sinkCbr.GetTotalRx, shownFixed 2 (kbps self.m_sinkCbr)),
         ("Bursty", self.m_sinkBursty.GetTotalRx, shownFixed 2 (kbps self.m_sinkBursty)),
         ("Web Fondo", self.m_sinkWebBg.GetTotalRx, shownFixed 2 (kbps self.m_sinkWebBg)),
         ("Web Std", self.m_sinkWebStd.GetTotalRx, shownFixed 2 (kbps self.m_sinkWebStd))] := by
  have h := finalStats_printed self.m_sinkCbr self.m_sinkBursty self.m_sinkWebBg
    self.m_sinkWebStd
  simp only [PrintFinalStats, List.append_assoc, List.drop_left] at h ⊢
  exact h

/-- The report of `Run` once the simulation has stopped. -/
theorem finalStats_Run (rx : ℚ → SinkTotals) (fuel : Nat) :
    finalStats (Run rx (23 + fuel)).cout
      = [("CBR (Video)", (PacketSink.mk (rx 12).cbr).GetTotalRx,
            shownFixed 2 (kbps ⟨(rx 12).cbr⟩)),
         ("Bursty", (PacketSink.mk (rx 12).bursty).GetTotalRx,
            shownFixed 2 (kbps ⟨(rx 12).bursty⟩)),
         ("Web Fondo", (PacketSink.mk (rx 12).webBg).GetTotalRx,
            shownFixed 2 (kbps ⟨(rx 12).webBg⟩)),
         ("Web Std", (PacketSink.mk (rx 12).webStd).GetTotalRx,
            shownFixed 2 (kbps ⟨(rx 12).webStd⟩))] := by
  have h : SimulatorRun rx (23 + fuel) RunSetup = stateStopped rx := by
    rw [SimulatorRun_RunSetup, if_neg (by omega)]
  rw [Run, h]
  simp only [PrintFinalStats, stateStopped, List.nil_append]
  exact finalStats_printed _ _ _ _

/-- The shown rate of the final report is within half a hundredth, plus the rounding of
the arithmetic, of the exact quotient. -/
theorem shown_kbps_near (sink : PacketSink) :
    ∃ s, shownFixed 2 (kbps sink) = some s ∧
      |s - (sink.GetTotalRx : ℚ) * 8 / 1000 / 12|
        ≤ 1 / 200 + 1 / 2 ^ 50 * ((sink.GetTotalRx : ℚ) * 8 / 1000 / 12) := by
  obtain ⟨r, hr, hb⟩ := kbps_near sink
  obtain ⟨s, hs, hsb⟩ := shownFixed_near r
  refine ⟨s, by rw [hr, hs], ?_⟩
  have := abs_sub_le s r ((sink.GetTotalRx : ℚ) * 8 / 1000 / 12)
  linarith

/-! ## Evaluation at given inputs -/

/-- The rate of the sampler when the conversion, the product and the first quotient are
known. -/
theorem mbps_unfold (sink : PacketSink) (t a b c : ℚ) (ht : t ≠ 0)
    (ha : Double.round (sink.GetTotalRx : ℚ) = .finite a)
    (hb : Double.round (a * 8) = .finite b)
    (hc : Double.round (b / 1000000) = .finite c) :
    mbps sink (.finite t) = Double.round (c / t) := by
  simp only [mbps, Double.ofU64, ha, lit_8_double, lit_1e6_double, Double.mul_finite, hb,
    Double.div_finite _ _ (by norm_num : (1000000 : ℚ) ≠ 0), hc, Double.div_finite _ _ ht]

/-- The rate of the final report when the conversion, the product and the first quotient
are known. -/
theorem kbps_unfold (sink : PacketSink) (a b c : ℚ)
    (ha : Double.round (sink.GetTotalRx : ℚ) = .finite a)
    (hb : Double.round (a * 8) = .finite b)
    (hc : Double.round (b / 1000) = .finite c) :
    kbps sink = Double.round (c / 12) := by
  simp only [kbps, Double.ofU64, ha, lit_8_double, lit_1000_double, lit_12_double,
    Double.mul_finite, hb, Double.div_finite _ _ (by norm_num : (1000 : ℚ) ≠ 0), hc,
    Double.div_finite _ _ (by norm_num : (12 : ℚ) ≠ 0)]

/-- A sink that has received nothing has rate 0 at any time other than 0. -/
theorem mbps_zero (t : ℚ) (ht : t ≠ 0) : mbps ⟨0⟩ (.finite t) = .finite 0 := by
  rw [mbps_unfold ⟨0⟩ t 0 0 0 ht (by simpa [PacketSink.GetTotalRx] using round_zero)
    (by simpa using round_zero) (by simpa using round_zero)]
  simpa using round_zero

theorem kbps_zero : kbps ⟨0⟩ = .finite 0 := by
  rw [kbps_unfold ⟨0⟩ 0 0 0 (by simpa [PacketSink.GetTotalRx] using round_zero)
    (by simpa using round_zero) (by simpa using round_zero)]
  simpa using round_zero

/-- Every source of `SetupApplications` comes from one of the four creation functions,
with a start time between 0.5 and 7.5. -/
theorem mem_SetupSources (a : Application) (h : a ∈ SetupSources) :
    ∃ (node : Nat) (start : ℚ), 1 / 2 ≤ start ∧ start ≤ 15 / 2 ∧
      (a = CreateCBR node start ∨ a = CreateBursty node start ∨
        a = CreateWebBackground node start ∨ a = CreateWebStandard node start) := by
  simp only [SetupSources, List.mem_append, List.mem_flatMap, List.mem_map, List.mem_range,
    List.mem_cons, List.mem_singleton, List.not_mem_nil, or_false] at h
  rcases h with ((⟨i, hi, h⟩ | ⟨i, hi, rfl⟩) | rfl) | ⟨i, hi, h⟩
  · have h0 : (0 : ℚ) ≤ (i : ℚ) := Nat.cast_nonneg i
    have h14 : (i : ℚ) ≤ 14 := by exact_mod_cast Nat.lt_succ_iff.mp hi
    rcases h with rfl | rfl | rfl | rfl | rfl | rfl
    · exact ⟨_, _, by norm_num; linarith, by norm_num; linarith, Or.inr (Or.inl rfl)⟩
    · exact ⟨_, _, by norm_num; linarith, by norm_num; linarith, Or.inl rfl⟩
    · exact ⟨_, _, by norm_num; linarith, by norm_num; linarith, Or.inr (Or.inr (Or.inr rfl))⟩
    · exact ⟨_, _, by norm_num; linarith, by norm_num; linarith, Or.inr (Or.inl rfl)⟩
    · exact ⟨_, _, by norm_num; linarith, by norm_num; linarith, Or.inl rfl⟩
    · exact ⟨_, _, by norm_num; linarith, by norm_num; linarith, Or.inr (Or.inr (Or.inr rfl))⟩
  · have h0 : (0 : ℚ) ≤ (i : ℚ) := Nat.cast_nonneg i
    have h9 : (i : ℚ) ≤ 9 := by exact_mod_cast Nat.lt_succ_iff.mp hi
    exact ⟨_, _, by norm_num; linarith, by norm_num; linarith, Or.inr (Or.inr (Or.inr rfl))⟩
  · exact ⟨_, _, by norm_num, by norm_num, Or.inr (Or.inl rfl)⟩
  · rcases h with rfl | rfl
    · exact ⟨_, _, by norm_num, by norm_num, Or.inr (Or.inl rfl)⟩
    · exact ⟨_, _, by norm_num, by norm_num, Or.inr (Or.inr (Or.inl rfl))⟩

/-! # The claims -/

/-- C8, as stated, fails: at the firing at `t = 2.0` with 250000 bytes in the
WebBackground sink and nothing in the others, the row holds the time and three rates,
all 0, and the rate of WebBackground, which is 1.0, is not among them. -/
theorem C8_webBackground_rate_not_recorded :
    values (written ⟨⟨0⟩, ⟨0⟩, ⟨250000⟩, ⟨0⟩, [], ⟨2, 4, [], false⟩, []⟩)
      = [.finite 2, .finite 0, .finite 0, .finite 0] ∧
    (Double.ofU64 (PacketSink.mk 250000).GetTotalRx * Double.lit 8.0) / Double.lit 1e6
        / GetSeconds (Simulator.Now ⟨2, 4, [], false⟩) = .finite 1 ∧
    (Double.ofU64 (PacketSink.mk 250000).GetTotalRx * Double.lit 8.0) / Double.lit 1e6
        / GetSeconds (Simulator.Now ⟨2, 4, [], false⟩)
      ∉ values (written ⟨⟨0⟩, ⟨0⟩, ⟨250000⟩, ⟨0⟩, [], ⟨2, 4, [], false⟩, []⟩) := by
  have h2 : GetSeconds 2 = .finite 2 := round_of_int 2 2 (by norm_num) (by norm_num)
  have hv : values (written ⟨⟨0⟩, ⟨0⟩, ⟨250000⟩, ⟨0⟩, [], ⟨2, 4, [], false⟩, []⟩)
      = [.finite 2, .finite 0, .finite 0, .finite 0] := by
    rw [written_eq]
    simp [values, rowItems, Simulator.Now, h2, mbps_zero 2 (by norm_num)]
  have hg : (Double.ofU64 (PacketSink.mk 250000).GetTotalRx * Double.lit 8.0)
      / Double.lit 1e6 / GetSeconds (Simulator.Now ⟨2, 4, [], false⟩) = .finite 1 := by
    have hm : mbps ⟨250000⟩ (.finite 2) = .finite 1 := by
      rw [mbps_unfold ⟨250000⟩ 2 250000 2000000 2 (by norm_num)
        (by
          have := round_natCast 250000 (by norm_num)
          simpa [PacketSink.GetTotalRx] using this)
        (round_eq _ 2000000 2000000 (by norm_num) (by norm_num) (by norm_num))
        (round_eq _ 2 2 (by norm_num) (by norm_num) (by norm_num))]
      exact round_eq _ 1 1 (by norm_num) (by norm_num) (by norm_num)
    simpa [mbps, Simulator.Now, h2] using hm
  refine ⟨hv, hg, ?_⟩
  rw [hv, hg]
  simp

/-- C8, amended: each firing records the rates of exactly three of the four sinks the
program holds, Video/CBR, Bursty and WebStandard in this order after the time; the total
of the WebBackground sink has no influence on what is written, and it is the final report
that shows it, with the totals of the three others. -/
theorem C8_three_classes_recorded (self : SchoolNetwork) :
    values (written self) =
      [GetSeconds self.sim.Now,
       (Double.ofU64 self.m_sinkCbr.GetTotalRx * Double.lit 8.0) / Double.lit 1e6
         / GetSeconds self.sim.Now,
       (Double.ofU64 self.m_sinkBursty.GetTotalRx * Double.lit 8.0) / Double.lit 1e6
         / GetSeconds self.sim.Now,
       (Double.ofU64 self.m_sinkWebStd.GetTotalRx * Double.lit 8.0) / Double.lit 1e6
         / GetSeconds self.sim.Now] ∧
    (values (written self)).length = 1 + 3 ∧
    (∀ sinkWebBg : PacketSink,
      written { self with m_sinkWebBg := sinkWebBg } = written self) ∧
    (finalStats ((PrintFinalStats self).cout.drop self.cout.length)).map
        (fun e => (e.1, e.2.1))
      = [("CBR (Video)", self.m_sinkCbr.GetTotalRx), ("Bursty", self.m_sinkBursty.GetTotalRx),
         ("Web Fondo", self.m_sinkWebBg.GetTotalRx),
         ("Web Std", self.m_sinkWebStd.GetTotalRx)] := by
  refine ⟨?_, ?_, ?_, ?_⟩
  · rw [written_eq]
    simp [values, rowItems, mbps]
  · rw [written_eq]
    simp [values, rowItems]
  · intro b
    rw [written_eq, written_eq]
  · rw [finalStats_PrintFinalStats]
    rfl

/-- C5: whatever the formatting of a `double` (it never produces a tab), the header line
and every data row written by `MonitorThroughput` split at the tabs into four columns;
the header columns are labelled Time, CBR, Bursty, WebStd and a data row holds, in the
same order, the time and the rates of the CBR, Bursty and WebStd sinks; every line of
the file produced by the run has four columns, and the file has one header line and one
line per sample. -/
theorem C5_header_and_rows_have_matching_columns (fmt : Double → List Char)
    (hfmt : ∀ v, '\t' ∉ fmt v) (self : SchoolNetwork) :
    (lines SchoolNetwork.new.m_throughputStream).map (columns fmt)
      = [["# Time(s) ".toList, " CBR(Mbps) ".toList, " Bursty(Mbps) ".toList,
          " WebStd(Mbps)".toList]] ∧
    (lines (written self)).map (columns fmt)
      = [[fmt (GetSeconds self.sim.Now),
          fmt ((Double.ofU64 self.m_sinkCbr.GetTotalRx * Double.lit 8.0) / Double.lit 1e6
            / GetSeconds self.sim.Now),
          fmt ((Double.ofU64 self.m_sinkBursty.GetTotalRx * Double.lit 8.0) / Double.lit 1e6
            / GetSeconds self.sim.Now),
          fmt ((Double.ofU64 self.m_sinkWebStd.GetTotalRx * Double.lit 8.0) / Double.lit 1e6
            / GetSeconds self.sim.Now)]] ∧
    (∀ (rx : ℚ → SinkTotals) (n : Nat),
      ∀ l ∈ lines (SimulatorRun rx n RunSetup).m_throughputStream,
        (columns fmt l).length = 4) ∧
    ∀ (rx : ℚ → SinkTotals) (n : Nat),
      (lines (SimulatorRun rx n RunSetup).m_throughputStream).length
        = 1 + (sampleTimes (SimulatorRun rx n RunSetup).m_throughputStream).length := by
  refine ⟨?_, ?_, ?_, ?_⟩
  · have h : SchoolNetwork.new.m_throughputStream = joinLines [headerLine] := rfl
    rw [h, lines_joinLines _ (by simp [headerLine])]
    simp [columns_headerLine]
  · rw [lines_written]
    simp only [List.map_cons, List.map_nil, rowItems, columns_row fmt hfmt, mbps]
  · intro rx n l hl
    rw [stream_SimulatorRun, lines_joinLines _ (endl_not_mem_lines rx _)] at hl
    simp only [List.mem_cons, rowsUpTo, List.mem_map] at hl
    rcases hl with rfl | ⟨k, -, rfl⟩
    · rw [columns_headerLine]
      rfl
    · rw [rowAt, rowItems, columns_row fmt hfmt]
      rfl
  · intro rx n
    rw [sampleTimes_SimulatorRun, stream_SimulatorRun,
      lines_joinLines _ (endl_not_mem_lines rx _)]
    simp [rowsUpTo, Nat.add_comm]

/-- Witness of C5: a formatting that writes `0` for zero and `1` for everything else, and
the state of the first firing. -/
theorem C5_header_and_rows_have_matching_columns_witness :
    (∀ v : Double, '\t' ∉ (if v = .finite 0 then ['0'] else ['1'])) ∧
    (lines (written ⟨⟨125000⟩, ⟨0⟩, ⟨0⟩, ⟨0⟩, [], ⟨1, 2, [], false⟩, []⟩)).map
        (columns fun v => if v = .finite 0 then ['0'] else ['1'])
      = [[['1'], ['1'], ['0'], ['0']]] := by
  have hfmt : ∀ v : Double, '\t' ∉ (if v = .finite 0 then ['0'] else ['1']) := by
    intro v
    split <;> decide
  refine ⟨hfmt, ?_⟩
  have h := (C5_header_and_rows_have_matching_columns
    (fun v => if v = .finite 0 then ['0'] else ['1']) hfmt
    ⟨⟨125000⟩, ⟨0⟩, ⟨0⟩, ⟨0⟩, [], ⟨1, 2, [], false⟩, []⟩).2.1
  have h1 : GetSeconds 1 = .finite 1 := round_eq 1 1 1 (by norm_num) (by norm_num) (by norm_num)
  have hc : mbps ⟨125000⟩ (.finite 1) = .finite 1 := by
    rw [mbps_unfold ⟨125000⟩ 1 125000 1000000 1 (by norm_num)
      (by
        have := round_natCast 125000 (by norm_num)
        simpa [PacketSink.GetTotalRx] using this)
      (round_eq _ 1000000 1000000 (by norm_num) (by norm_num) (by norm_num))
      (round_eq _ 1 1 (by norm_num) (by norm_num) (by norm_num))]
    exact round_eq _ 1 1 (by norm_num) (by norm_num) (by norm_num)
  have hz := mbps_zero 1 (by norm_num)
  simp only [mbps] at hc hz
  rw [h]
  simp [Simulator.Now, h1, hc, hz]

/-- C2, as stated, fails: with 125000 bytes in the video sink the report shows 83.33,
which is not `125000 * 8 / 1000 / 12`. -/
theorem C2_shown_rate_not_exact :
    finalStats ((PrintFinalStats ⟨⟨125000⟩, ⟨0⟩, ⟨0⟩, ⟨0⟩, [], ⟨12, 24, [], true⟩, []⟩).cout)
      = [("CBR (Video)", 125000, some (8333 / 100)), ("Bursty", 0, some 0),
         ("Web Fondo", 0, some 0), ("Web Std", 0, some 0)] ∧
    (8333 / 100 : ℚ) ≠ (125000 : ℚ) * 8 / 1000 / 12.0 := by
  have hk : shownFixed 2 (kbps ⟨125000⟩) = some (8333 / 100) := by
    rw [kbps_unfold ⟨125000⟩ 125000 1000000 1000
      (by
        have := round_natCast 125000 (by norm_num)
        simpa [PacketSink.GetTotalRx] using this)
      (round_eq _ 1000000 1000000 (by norm_num) (by norm_num) (by norm_num))
      (round_eq _ 1000 1000 (by norm_num) (by norm_num) (by norm_num))]
    obtain ⟨r, hr, l, u⟩ := round_near_num (1000 / 12) (by norm_num) (by norm_num)
    rw [hr]
    have hn : roundHalfEven (r * 10 ^ 2) = 8333 := by
      apply roundHalfEven_eq_of_abs_sub_lt
      rw [abs_lt]
      norm_num at l u ⊢
      constructor <;> linarith
    simp only [shownFixed, hn]
    norm_num
  have h0 : shownFixed 2 (kbps ⟨0⟩) = some 0 := by
    rw [kbps_zero]
    simp [shownFixed, roundHalfEven]
  refine ⟨?_, by norm_num⟩
  have h := finalStats_PrintFinalStats ⟨⟨125000⟩, ⟨0⟩, ⟨0⟩, ⟨0⟩, [], ⟨12, 24, [], true⟩, []⟩
  simp only [List.length_nil, List.drop_zero] at h
  rw [h, hk, h0]
  simp [PacketSink.GetTotalRx]

/-- C2, amended: `PrintFinalStats` reports, for Video/CBR, Bursty, WebBackground and
WebStandard in this order, the total `B` of the sink and the rate `B * 8 / 1000 / 12.0`
computed in binary64 and shown with two decimals, so within
`0.005 + 2 ^ (-50) * (B * 8 / 1000 / 12)` of the exact quotient, the divisor being the
constant 12.0 whatever the state; this is what `Run` prints once the simulation has
stopped (any fuel from 23 on), with the totals delivered by 12.0 s; and a total of
2250000 bytes is shown as 1500. -/
theorem C2_final_stats_over_fixed_duration (self : SchoolNetwork) :
    (∃ sCbr sBursty sWebBg sWebStd : ℚ,
      finalStats ((PrintFinalStats self).cout.drop self.cout.length)
        = [("CBR (Video)", self.m_sinkCbr.GetTotalRx, some sCbr),
           ("Bursty", self.m_sinkBursty.GetTotalRx, some sBursty),
           ("Web Fondo", self.m_sinkWebBg.GetTotalRx, some sWebBg),
           ("Web Std", self.m_sinkWebStd.GetTotalRx, some sWebStd)] ∧
      |sCbr - (self.m_sinkCbr.GetTotalRx : ℚ) * 8 / 1000 / 12.0|
        ≤ 1 / 200 + 1 / 2 ^ 50 * ((self.m_sinkCbr.GetTotalRx : ℚ) * 8 / 1000 / 12.0) ∧
      |sBursty - (self.m_sinkBursty.GetTotalRx : ℚ) * 8 / 1000 / 12.0|
        ≤ 1 / 200 + 1 / 2 ^ 50 * ((self.m_sinkBursty.GetTotalRx : ℚ) * 8 / 1000 / 12.0) ∧
      |sWebBg - (self.m_sinkWebBg.GetTotalRx : ℚ) * 8 / 1000 / 12.0|
        ≤ 1 / 200 + 1 / 2 ^ 50 * ((self.m_sinkWebBg.GetTotalRx : ℚ) * 8 / 1000 / 12.0) ∧
      |sWebStd - (self.m_sinkWebStd.GetTotalRx : ℚ) * 8 / 1000 / 12.0|
        ≤ 1 / 200 + 1 / 2 ^ 50 * ((self.m_sinkWebStd.GetTotalRx : ℚ) * 8 / 1000 / 12.0)) ∧
    (∀ (rx : ℚ → SinkTotals) (fuel : Nat),
      finalStats (Run rx (23 + fuel)).cout
        = finalStats ((PrintFinalStats
            ⟨⟨(rx 12.0).cbr⟩, ⟨(rx 12.0).bursty⟩, ⟨(rx 12.0).webBg⟩, ⟨(rx 12.0).webStd⟩,
             [], ⟨12.0, 24, [], true⟩, []⟩).cout)) ∧
    finalStats (Run (fun _ => ⟨2250000, 0, 0, 0⟩) 23).cout
      = [("CBR (Video)", 2250000, some 1500), ("Bursty", 0, some 0),
         ("Web Fondo", 0, some 0), ("Web Std", 0, some 0)] := by
  refine ⟨?_, ?_, ?_⟩
  · obtain ⟨s1, e1, b1⟩ := shown_kbps_near self.m_sinkCbr
    obtain ⟨s2, e2, b2⟩ := shown_kbps_near self.m_sinkBursty
    obtain ⟨s3, e3, b3⟩ := shown_kbps_near self.m_sinkWebBg
    obtain ⟨s4, e4, b4⟩ := shown_kbps_near self.m_sinkWebStd
    refine ⟨s1, s2, s3, s4, ?_, ?_, ?_, ?_, ?_⟩
    · rw [finalStats_PrintFinalStats, e1, e2, e3, e4]
    · rw [lit_12]; exact b1
    · rw [lit_12]; exact b2
    · rw [lit_12]; exact b3
    · rw [lit_12]; exact b4
  · intro rx fuel
    have h := finalStats_PrintFinalStats
      ⟨⟨(rx 12).cbr⟩, ⟨(rx 12).bursty⟩, ⟨(rx 12).webBg⟩, ⟨(rx 12).webStd⟩,
       [], ⟨12, 24, [], true⟩, []⟩
    simp only [List.length_nil, List.drop_zero] at h
    rw [lit_12, h, finalStats_Run]
  · have hk : shownFixed 2 (kbps ⟨2250000⟩) = some 1500 := by
      rw [kbps_unfold ⟨2250000⟩ 2250000 18000000 18000
        (by
          have := round_natCast 2250000 (by norm_num)
          simpa [PacketSink.GetTotalRx] using this)
        (round_eq _ 18000000 18000000 (by norm_num) (by norm_num) (by norm_num))
        (round_eq _ 18000 18000 (by norm_num) (by norm_num) (by norm_num)),
        round_eq _ 1500 1500 (by norm_num) (by norm_num) (by norm_num)]
      have hn : roundHalfEven ((1500 : ℚ) * 10 ^ 2) = 150000 :=
        roundHalfEven_eq_of_abs_sub_lt _ _ (by norm_num)
      simp only [shownFixed, hn]
      norm_num
    have h0 : shownFixed 2 (kbps ⟨0⟩) = some 0 := by
      rw [kbps_zero]
      simp [shownFixed, roundHalfEven]
    rw [finalStats_Run (fun _ => ⟨2250000, 0, 0, 0⟩) 0, hk, h0]
    simp [PacketSink.GetTotalRx]

/-- C4: `Run` schedules the sampler once, at 1.0 s; a firing of `MonitorThroughput` at
time `t`, in any state whatever (stopped or not, at any time), writes exactly one row,
stamped `t`, and adds exactly one event to the queue, a firing at `t + 0.5`; so after any
number `n` of dispatches of the run the file holds the samples number `k` below
`min n 22`, the sample number `k` has time `1.0 + 0.5 * k`, and consecutive time stamps
increase by exactly 0.5. -/
theorem C4_sample_times_are_periodic (self : SchoolNetwork) (rx : ℚ → SinkTotals) (n : Nat) :
    RunSetup.sim.m_events.filter (fun e => e.impl = .MonitorThroughput)
      = [⟨1.0, 0, .MonitorThroughput⟩] ∧
    (lines (written self)).map (fun l => (values l).head?) = [some (GetSeconds self.sim.Now)] ∧
    (MonitorThroughput self).sim.m_events.Perm
      (⟨self.sim.Now + 0.5, self.sim.m_uid, .MonitorThroughput⟩ :: self.sim.m_events) ∧
    (MonitorThroughput self).sim.m_stop = self.sim.m_stop ∧
    sampleTimes (SimulatorRun rx n RunSetup).m_throughputStream
      = (List.range (min n 22)).map (fun k : Nat => Double.finite (1.0 + 0.5 * (k : ℚ))) ∧
    List.Chain' (fun a b : Double => ∃ x y : ℚ, a = .finite x ∧ b = .finite y ∧ x < y ∧
        y - x = 0.5)
      (sampleTimes (SimulatorRun rx n RunSetup).m_throughputStream) := by
  refine ⟨?_, ?_, ?_, ?_, ?_, ?_⟩
  · rw [events_RunSetup, lit_1]
    decide
  · rw [lines_written]
    simp [values, rowItems]
  · simp only [MonitorThroughput, Simulator.Schedule, Simulator.Now, Seconds]
    exact Insert_perm _ _
  · rfl
  · rw [sampleTimes_SimulatorRun]
    apply List.map_congr_left
    intro k _
    simp only [sampleTime, lit_1, lit_half]
    congr 1
    ring
  · rw [sampleTimes_SimulatorRun, lit_half]
    exact chain_sampleTime _

/-- C9: at every point of the run started by `Run`, every pending firing of
`MonitorThroughput` is at a time that is a double at least 1.0, and every row of the
file holds that time `t`, at least 1.0, followed by the three quotients of
`B * 8.0 / 1e6` by `t`, each of them a number: no firing of the run divides by zero. A
firing at time 0 would: it writes an infinity and NaNs. -/
theorem C9_divisor_at_least_one (rx : ℚ → SinkTotals) (n : Nat) :
    (∀ e ∈ (SimulatorRun rx n RunSetup).sim.m_events,
      e.impl = .MonitorThroughput → ∃ t : ℚ, GetSeconds e.ts = .finite t ∧ 1.0 ≤ t) ∧
    (∀ row ∈ dataRows (SimulatorRun rx n RunSetup).m_throughputStream,
      ∃ t : ℚ, 1.0 ≤ t ∧ GetSeconds t = .finite t ∧
        row = [.finite t,
          (Double.ofU64 (PacketSink.mk (rx t).cbr).GetTotalRx * Double.lit 8.0)
            / Double.lit 1e6 / .finite t,
          (Double.ofU64 (PacketSink.mk (rx t).bursty).GetTotalRx * Double.lit 8.0)
            / Double.lit 1e6 / .finite t,
          (Double.ofU64 (PacketSink.mk (rx t).webStd).GetTotalRx * Double.lit 8.0)
            / Double.lit 1e6 / .finite t] ∧
        ∀ v ∈ row, v.isFinite = true) ∧
    values (written ⟨⟨125000⟩, ⟨0⟩, ⟨0⟩, ⟨0⟩, [], ⟨0, 0, [], false⟩, []⟩)
      = [.finite 0, .inf false, .nan, .nan] := by
  refine ⟨?_, ?_, ?_⟩
  · intro e he hm
    obtain ⟨k, hk, hts⟩ := pending_firing_ge_one rx n e he hm
    refine ⟨sampleTime k, by rw [hts]; exact GetSeconds_sampleTime k hk, ?_⟩
    rw [lit_1]
    exact one_le_sampleTime k
  · intro row hrow
    rw [dataRows_SimulatorRun, List.mem_map] at hrow
    obtain ⟨k, hk, rfl⟩ := hrow
    have hk22 : k ≤ 22 := by
      have := List.mem_range.1 hk
      omega
    have h1 := one_le_sampleTime k
    have h12 := sampleTime_le k hk22
    have hfin : ∀ sink : PacketSink,
        (mbps sink (.finite (sampleTime k))).isFinite = true := by
      intro sink
      obtain ⟨r, hr, -⟩ := mbps_near sink (sampleTime k)
        (le_trans (by norm_num) h1) (le_trans h12 (by norm_num))
      rw [hr]
      rfl
    refine ⟨sampleTime k, by rw [lit_1]; exact h1, GetSeconds_sampleTime k hk22, ?_, ?_⟩
    · rw [GetSeconds_sampleTime k hk22]
      rfl
    · rw [GetSeconds_sampleTime k hk22]
      intro v hv
      simp only [List.mem_cons, List.mem_singleton, List.not_mem_nil, or_false] at hv
      rcases hv with rfl | rfl | rfl | rfl
      · rfl
      · exact hfin _
      · exact hfin _
      · exact hfin _
  · have h0 : GetSeconds 0 = .finite 0 := round_zero
    have hx : Double.ofU64 (PacketSink.mk 125000).GetTotalRx * Double.lit 8.0
        / Double.lit 1e6 = .finite 1 := by
      have ha : Double.round (((PacketSink.mk 125000).GetTotalRx : ℕ) : ℚ)
          = .finite 125000 := by
        have := round_natCast 125000 (by norm_num)
        simpa [PacketSink.GetTotalRx] using this
      rw [Double.ofU64, ha, lit_8_double, lit_1e6_double, Double.mul_finite,
        round_eq _ 1000000 1000000 (by norm_num) (by norm_num) (by norm_num),
        Double.div_finite _ _ (by norm_num),
        round_eq _ 1 1 (by norm_num) (by norm_num) (by norm_num)]
    have hy : Double.ofU64 (PacketSink.mk 0).GetTotalRx * Double.lit 8.0
        / Double.lit 1e6 = .finite 0 := by
      have ha : Double.round (((PacketSink.mk 0).GetTotalRx : ℕ) : ℚ) = .finite 0 := by
        simpa [PacketSink.GetTotalRx] using round_zero
      rw [Double.ofU64, ha, lit_8_double, lit_1e6_double, Double.mul_finite, zero_mul,
        round_zero, Double.div_finite _ _ (by norm_num), zero_div, round_zero]
    have d1 : (Double.finite 1 / Double.finite 0) = .inf false := by
      show Double.div _ _ = _
      simp [Double.div]
    have d0 : (Double.finite 0 / Double.finite 0) = .nan := by
      show Double.div _ _ = _
      simp [Double.div]
    rw [written_eq]
    simp [values, rowItems, mbps, Simulator.Now, h0, hx, hy, d1, d0]

/-- Witness of C9: the firing pending when the run starts, and the second row. -/
theorem C9_divisor_at_least_one_witness :
    ((⟨1, 0, .MonitorThroughput⟩ : Event)
        ∈ (SimulatorRun (fun _ => ⟨0, 0, 0, 0⟩) 0 RunSetup).sim.m_events ∧
      ∃ t : ℚ, GetSeconds 1 = .finite t ∧ 1.0 ≤ t) ∧
    ∃ row ∈ dataRows (SimulatorRun (fun _ => ⟨0, 0, 0, 0⟩) 2 RunSetup).m_throughputStream,
      ∀ v ∈ row, v.isFinite = true := by
  have h1 : (⟨1, 0, .MonitorThroughput⟩ : Event)
      ∈ (SimulatorRun (fun _ => ⟨0, 0, 0, 0⟩) 0 RunSetup).sim.m_events := by
    simp [SimulatorRun, events_RunSetup]
  have h2 : ∃ row, row
      ∈ dataRows (SimulatorRun (fun _ => ⟨0, 0, 0, 0⟩) 2 RunSetup).m_throughputStream := by
    rw [dataRows_SimulatorRun]
    exact ⟨_, List.mem_map.2 ⟨1, List.mem_range.2 (by decide), rfl⟩⟩
  obtain ⟨row, hrow⟩ := h2
  have a1 := (C9_divisor_at_least_one (fun _ => ⟨0, 0, 0, 0⟩) 0).1 _ h1 rfl
  obtain ⟨t, -, -, -, a2⟩ := (C9_divisor_at_least_one (fun _ => ⟨0, 0, 0, 0⟩) 2).2.1 row hrow
  exact ⟨⟨h1, a1⟩, ⟨row, hrow, a2⟩⟩

/-- C3: on any node and with any start time, the source made by `CreateCBR` is UDP,
2 Mbit/s, on time constant 1.0 s, off time constant 0.0 s, mark 0xB8; by `CreateBursty`
UDP, 500 kbit/s, on and off times exponential with mean 1.0 s, mark 0x48; by
`CreateWebBackground` TCP, 100 kbit/s, constant on time and constant off time 0, mark
0x00; by `CreateWebStandard` TCP, 1 Mbit/s, on time exponential with mean 2.0 s, off time
exponential with mean 5.0 s, mark 0x28; the mark of Video is strictly the highest and
that of WebBackground strictly the lowest. -/
theorem C3_sources_carry_profile_table (node : Nat) (start : ℚ) :
    ∃ video bursty webBg webStd : OnOffApplication,
      (CreateCBR node start).source = some video ∧
      (CreateBursty node start).source = some bursty ∧
      (CreateWebBackground node start).source = some webBg ∧
      (CreateWebStandard node start).source = some webStd ∧
      video.profile = ⟨"ns3::UdpSocketFactory", 2000000, true, 1.0, true, 0.0, 0xB8⟩ ∧
      bursty.profile = ⟨"ns3::UdpSocketFactory", 500000, false, 1.0, false, 1.0, 0x48⟩ ∧
      webBg.profile = ⟨"ns3::TcpSocketFactory", 100000, true, 1000, true, 0, 0x00⟩ ∧
      webStd.profile = ⟨"ns3::TcpSocketFactory", 1000000, false, 2.0, false, 5.0, 0x28⟩ ∧
      bursty.tos < video.tos ∧ webStd.tos < video.tos ∧ webBg.tos < video.tos ∧
      webBg.tos < bursty.tos ∧ webBg.tos < webStd.tos := by
  refine ⟨⟨"ns3::UdpSocketFactory", 9000, 2000000, .Constant ⟨10, 1⟩, .Constant ⟨0, 1⟩, 0xB8⟩,
    ⟨"ns3::UdpSocketFactory", 9001, 500000, .Exponential ⟨10, 1⟩, .Exponential ⟨10, 1⟩, 0x48⟩,
    ⟨"ns3::TcpSocketFactory", 80, 100000, .Constant ⟨1000, 0⟩, .Constant ⟨0, 0⟩, 0x00⟩,
    ⟨"ns3::TcpSocketFactory", 8080, 1000000, .Exponential ⟨20, 1⟩, .Exponential ⟨50, 1⟩, 0x28⟩,
    rfl, rfl, rfl, rfl, ?_, ?_, ?_, ?_, ?_⟩
  · norm_num [OnOffApplication.profile, RandomVariable.isConstant, RandomVariable.value,
      Decimal.toRat]
  · norm_num [OnOffApplication.profile, RandomVariable.isConstant, RandomVariable.value,
      Decimal.toRat]
  · norm_num [OnOffApplication.profile, RandomVariable.isConstant, RandomVariable.value,
      Decimal.toRat]
  · norm_num [OnOffApplication.profile, RandomVariable.isConstant, RandomVariable.value,
      Decimal.toRat]
  · decide

/-- C6: for every traffic source of `SetupApplications` there is a sink, installed on the
server node, listening with the socket factory and on the port the source sends to, and
started at 0.0, strictly before the source starts; the four sinks are UDP 9000, UDP 9001,
TCP 80 and TCP 8080, pairwise distinct; and the sinks are installed before the sources. -/
theorem C6_sink_provisioned_before_source (a : Application) (h : a ∈ SetupSources) :
    (∃ helper, a.obj = .onoff helper) ∧
    (∃ sink ∈ SetupSinks,
      sink.obj = .sink a.endpoint.1 a.endpoint.2 ∧
      sink.node = Get m_internetNode 0 ∧
      sink.m_startTime = 0.0 ∧
      sink.m_startTime < a.m_startTime) ∧
    SetupSinks.map Application.endpoint
      = [("ns3::UdpSocketFactory", 9000), ("ns3::UdpSocketFactory", 9001),
         ("ns3::TcpSocketFactory", 80), ("ns3::TcpSocketFactory", 8080)] ∧
    (SetupSinks.map Application.endpoint).Nodup ∧
    SetupApplications = SetupSinks ++ SetupSources := by
  refine ⟨?_, ?_, by decide, by decide, rfl⟩
  · obtain ⟨node, start, -, -, rfl | rfl | rfl | rfl⟩ := mem_SetupSources a h
    · exact ⟨_, rfl⟩
    · exact ⟨_, rfl⟩
    · exact ⟨_, rfl⟩
    · exact ⟨_, rfl⟩
  · obtain ⟨node, start, h1, -, rfl | rfl | rfl | rfl⟩ := mem_SetupSources a h
    · refine ⟨InstallSink "ns3::UdpSocketFactory" 9000 (Get m_internetNode 0) 0.0,
        by simp [SetupSinks], rfl, rfl, rfl, ?_⟩
      norm_num [InstallSink, CreateCBR, Seconds]
      linarith
    · refine ⟨InstallSink "ns3::UdpSocketFactory" 9001 (Get m_internetNode 0) 0.0,
        by simp [SetupSinks], rfl, rfl, rfl, ?_⟩
      norm_num [InstallSink, CreateBursty, Seconds]
      linarith
    · refine ⟨InstallSink "ns3::TcpSocketFactory" 80 (Get m_internetNode 0) 0.0,
        by simp [SetupSinks], rfl, rfl, rfl, ?_⟩
      norm_num [InstallSink, CreateWebBackground, Seconds]
      linarith
    · refine ⟨InstallSink "ns3::TcpSocketFactory" 8080 (Get m_internetNode 0) 0.0,
        by simp [SetupSinks], rfl, rfl, rfl, ?_⟩
      norm_num [InstallSink, CreateWebStandard, Seconds]
      linarith

/-- Witness of C6: the WebBackground source of the first computer room. -/
theorem C6_sink_provisioned_before_source_witness :
    CreateWebBackground (Get m_informaticaNodes 0) 0.5 ∈ SetupSources ∧
    ∃ sink ∈ SetupSinks,
      sink.obj = .sink (CreateWebBackground (Get m_informaticaNodes 0) 0.5).endpoint.1
        (CreateWebBackground (Get m_informaticaNodes 0) 0.5).endpoint.2 ∧
      sink.node = Get m_internetNode 0 ∧
      sink.m_startTime = 0.0 ∧
      sink.m_startTime < (CreateWebBackground (Get m_informaticaNodes 0) 0.5).m_startTime := by
  have hm : CreateWebBackground (Get m_informaticaNodes 0) 0.5 ∈ SetupSources := by
    simp only [SetupSources, List.mem_append, List.mem_flatMap, List.mem_range, List.mem_cons]
    exact Or.inr ⟨0, by decide, Or.inr (Or.inl rfl)⟩
  exact ⟨hm, (C6_sink_provisioned_before_source _ hm).2.1⟩

/-- C10: every traffic source of `SetupApplications` starts at a time `s` with
`0.5 <= s <= 7.5` and stops at 10.0, so `s < 10.0` and its lifetime is not empty, and the
stop of the run, the only stop event `Run` schedules, is at 12.0, after 10.0; the start
times are, in program order, those of the listing. -/
theorem C10_sources_have_nonempty_lifetime (a : Application) (h : a ∈ SetupSources) :
    0.5 ≤ a.m_startTime ∧ a.m_startTime ≤ 7.5 ∧ a.m_stopTime = some 10.0 ∧
    a.m_startTime < 10.0 ∧
    RunSetup.sim.m_events.filter (fun e => e.impl = .Stop) = [⟨12.0, 1, .Stop⟩] ∧
    (10.0 : ℚ) < 12.0 ∧
    SetupSources.map (fun b => b.m_startTime)
      = ((List.range 15).flatMap fun i : Nat =>
          [1.0 + (i : ℚ) * 0.1, 2.0 + (i : ℚ) * 0.1, 1.0 + (i : ℚ) * 0.2,
           1.5 + (i : ℚ) * 0.1, 2.5 + (i : ℚ) * 0.1, 1.5 + (i : ℚ) * 0.2]) ++
        ((List.range 10).map fun i : Nat => 3.0 + (i : ℚ) * 0.5) ++ [1.0] ++
        [1.0, 0.5, 1.0, 0.5] := by
  have hs : a.m_startTime < 10.0 ∧ 0.5 ≤ a.m_startTime ∧ a.m_startTime ≤ 7.5 ∧
      a.m_stopTime = some 10.0 := by
    obtain ⟨node, start, h1, h2, rfl | rfl | rfl | rfl⟩ := mem_SetupSources a h
    · refine ⟨?_, ?_, ?_, rfl⟩ <;> norm_num [CreateCBR, Seconds] <;> linarith
    · refine ⟨?_, ?_, ?_, rfl⟩ <;> norm_num [CreateBursty, Seconds] <;> linarith
    · refine ⟨?_, ?_, ?_, rfl⟩ <;> norm_num [CreateWebBackground, Seconds] <;> linarith
    · refine ⟨?_, ?_, ?_, rfl⟩ <;> norm_num [CreateWebStandard, Seconds] <;> linarith
  refine ⟨hs.2.1, hs.2.2.1, hs.2.2.2, hs.1, ?_, by norm_num, rfl⟩
  rw [events_RunSetup, lit_12]
  decide

/-- Witness of C10: the last guest access point, whose source starts at 7.5. -/
theorem C10_sources_have_nonempty_lifetime_witness :
    CreateWebStandard (Get m_invitadosNodes 9) (3.0 + ((9 : Nat) : ℚ) * 0.5) ∈ SetupSources ∧
    (CreateWebStandard (Get m_invitadosNodes 9) (3.0 + ((9 : Nat) : ℚ) * 0.5)).m_startTime
      < 10.0 := by
  have hm : CreateWebStandard (Get m_invitadosNodes 9) (3.0 + ((9 : Nat) : ℚ) * 0.5)
      ∈ SetupSources := by
    simp only [SetupSources, List.mem_append, List.mem_map, List.mem_range]
    exact Or.inl (Or.inl (Or.inr ⟨9, by decide, rfl⟩))
  exact ⟨hm, (C10_sources_have_nonempty_lifetime _ hm).2.2.2.1⟩

/-- C7: no node carries two sources of the same class; each of the 15 student nodes and 15
staff nodes carries exactly one Bursty, one Video and one WebStandard source, each of the
10 guest nodes exactly one WebStandard source, the admin node exactly one Bursty source,
each of the 2 lab nodes exactly one Bursty and one WebBackground source, and none of them
anything else; in all 33 Bursty, 30 Video, 40 WebStandard and 2 WebBackground sources,
105 sources. -/
theorem C7_one_source_per_node_and_class :
    (SetupSources.map fun a => (a.node, a.trafficClass)).Nodup ∧
    (m_estudiantesNodes.length = 15 ∧ m_profesoresNodes.length = 15 ∧
      m_invitadosNodes.length = 10 ∧ m_adminNodes.length = 1 ∧
      m_informaticaNodes.length = 2) ∧
    (m_estudiantesNodes ++ m_profesoresNodes ++ m_invitadosNodes ++ m_adminNodes ++
      m_informaticaNodes).Nodup ∧
    (∀ n ∈ m_estudiantesNodes ++ m_profesoresNodes,
      sourcesOn n .Bursty = 1 ∧ sourcesOn n .Video = 1 ∧ sourcesOn n .WebStandard = 1 ∧
      sourcesOn n .WebBackground = 0) ∧
    (∀ n ∈ m_invitadosNodes,
      sourcesOn n .WebStandard = 1 ∧ sourcesOn n .Bursty = 0 ∧ sourcesOn n .Video = 0 ∧
      sourcesOn n .WebBackground = 0) ∧
    (∀ n ∈ m_adminNodes,
      sourcesOn n .Bursty = 1 ∧ sourcesOn n .Video = 0 ∧ sourcesOn n .WebStandard = 0 ∧
      sourcesOn n .WebBackground = 0) ∧
    (∀ n ∈ m_informaticaNodes,
      sourcesOn n .Bursty = 1 ∧ sourcesOn n .WebBackground = 1 ∧ sourcesOn n .Video = 0 ∧
      sourcesOn n .WebStandard = 0) ∧
    sourcesOfClass .Bursty = 33 ∧ sourcesOfClass .Video = 30 ∧
    sourcesOfClass .WebStandard = 40 ∧ sourcesOfClass .WebBackground = 2 ∧
    SetupSources.length = 105 := by
  refine ⟨by decide, by decide, by decide, by decide, by decide, by decide, by decide,
    by decide, by decide, by decide, by decide, by decide⟩

/-- Witness of C7: the first student node and the admin node. -/
theorem C7_one_source_per_node_and_class_witness :
    (0 ∈ m_estudiantesNodes ++ m_profesoresNodes ∧ sourcesOn 0 .Video = 1) ∧
    (32 ∈ m_adminNodes ∧ sourcesOn 32 .Bursty = 1) :=
  ⟨⟨by decide, (C7_one_source_per_node_and_class.2.2.2.1 0 (by decide)).2.1⟩,
   ⟨by decide, (C7_one_source_per_node_and_class.2.2.2.2.2.1 32 (by decide)).1⟩⟩

end SchoolNetworkSim
